import Mathlib

set_option maxRecDepth 10000

/-!
Shallow embedding of the Endfield-Network IL2CPP core (binary-parser, il2cpp
crates) used to check the specification claims.  Machine integers are modelled
as `Nat`/`Int`; byte buffers as `List Nat`; Rust `Result`/panics as `Except`;
Rust `Option` as `Option`.  Each definition mirrors one item of the Rust
source, named after it where Lean allows.
-/

deriving instance DecidableEq for Except

namespace Endfield

/-- core/types.rs `Address::offset` for the opaque 64-bit `Address(u64)`
(addresses are modelled as plain `Nat` throughout):
`(self.0 as i64 + offset) as u64` — two's-complement reinterpretation plus
wrapping addition is addition mod 2^64. -/
def addrOffset (a : Nat) (off : Int) : Nat :=
  (((a : Int) + off) % (2 ^ 64 : Int)).toNat

/-- Byte of a buffer at index `i`.  The Rust code only reads in bounds (it
checks first); the default 0 is never reached on the guarded paths. -/
def byteAt (d : List Nat) (i : Nat) : Nat := d.getD i 0

/-- Little-endian u16 at index `i` (`u16::from_le_bytes`). -/
def u16At (d : List Nat) (i : Nat) : Nat :=
  byteAt d i + 256 * byteAt d (i + 1)

/-- Little-endian u32 at index `i` (`u32::from_le_bytes`). -/
def u32At (d : List Nat) (i : Nat) : Nat :=
  byteAt d i + 256 * (byteAt d (i + 1) + 256 * (byteAt d (i + 2) + 256 * byteAt d (i + 3)))

/-- Little-endian u64 at index `i` (`u64::from_le_bytes`). -/
def u64At (d : List Nat) (i : Nat) : Nat :=
  u32At d i + 2 ^ 32 * u32At d (i + 4)

/-- Reinterpret an unsigned 32-bit value as i32 (`as i32`). -/
def asI32 (n : Nat) : Int :=
  if n < 2 ^ 31 then (n : Int) else (n : Int) - 2 ^ 32

/-- Reinterpret an unsigned 16-bit value as i16 (`as i16`). -/
def asI16 (n : Nat) : Int :=
  if n < 2 ^ 15 then (n : Int) else (n : Int) - 2 ^ 16

/-- Little-endian i32 at index `i` (`i32::from_le_bytes`). -/
def i32At (d : List Nat) (i : Nat) : Int := asI32 (u32At d i)

/-- Little-endian byte decomposition of `n` into `k` bytes
(`to_le_bytes` of `n as uK`; truncation happens via the mod-256 chain). -/
def leBytes : Nat → Nat → List Nat
  | 0, _ => []
  | k + 1, n => n % 256 :: leBytes k (n / 256)

/-- binary-parser/src/error.rs `ParseError` (variants used by the core). -/
inductive ParseError where
  | unknownFormat
  | invalidMagic (expected actual : Nat)
  | invalidHeader (msg : String)
  | addressOutOfBounds (addr : Nat)
  | parseMsg (msg : String)
  | truncatedData (expected actual : Nat)
deriving DecidableEq

/-- binary-parser/src/common.rs `BinaryReader`. -/
structure BinaryReader where
  data : List Nat
  offset : Nat
  little_endian : Bool
deriving DecidableEq

namespace BinaryReader

/-- `BinaryReader::new`. -/
def new (data : List Nat) (little_endian : Bool) : BinaryReader :=
  { data := data, offset := 0, little_endian := little_endian }

/-- `BinaryReader::new_at`. -/
def new_at (data : List Nat) (offset : Nat) (little_endian : Bool) : BinaryReader :=
  { data := data, offset := offset, little_endian := little_endian }

/-- `BinaryReader::remaining`: `data.len().saturating_sub(offset)`
(truncated subtraction is exactly `Nat` subtraction). -/
def remaining (r : BinaryReader) : Nat := r.data.length - r.offset

/-- `BinaryReader::read_bytes`. -/
def read_bytes (r : BinaryReader) (count : Nat) :
    Except ParseError (List Nat × BinaryReader) :=
  if r.offset + count > r.data.length then
    .error (.truncatedData count r.remaining)
  else
    .ok ((r.data.drop r.offset).take count, { r with offset := r.offset + count })

/-- `BinaryReader::read_u8`. -/
def read_u8 (r : BinaryReader) : Except ParseError (Nat × BinaryReader) :=
  if r.offset ≥ r.data.length then .error (.truncatedData 1 0)
  else .ok (byteAt r.data r.offset, { r with offset := r.offset + 1 })

/-- `BinaryReader::read_u16` (endianness fixed at construction). -/
def read_u16 (r : BinaryReader) : Except ParseError (Nat × BinaryReader) :=
  if r.offset + 2 > r.data.length then .error (.truncatedData 2 r.remaining)
  else
    let value :=
      if r.little_endian then u16At r.data r.offset
      else byteAt r.data (r.offset + 1) + 256 * byteAt r.data r.offset
    .ok (value, { r with offset := r.offset + 2 })

/-- `BinaryReader::read_u32`. -/
def read_u32 (r : BinaryReader) : Except ParseError (Nat × BinaryReader) :=
  if r.offset + 4 > r.data.length then .error (.truncatedData 4 r.remaining)
  else
    let b := fun i => byteAt r.data (r.offset + i)
    let value :=
      if r.little_endian then u32At r.data r.offset
      else b 3 + 256 * (b 2 + 256 * (b 1 + 256 * b 0))
    .ok (value, { r with offset := r.offset + 4 })

/-- `BinaryReader::read_u64`. -/
def read_u64 (r : BinaryReader) : Except ParseError (Nat × BinaryReader) :=
  if r.offset + 8 > r.data.length then .error (.truncatedData 8 r.remaining)
  else
    let lo := u32At r.data r.offset
    let hi := u32At r.data (r.offset + 4)
    let value :=
      if r.little_endian then lo + 2 ^ 32 * hi
      else
        let b := fun i => byteAt r.data (r.offset + i)
        b 7 + 256 * (b 6 + 256 * (b 5 + 256 * (b 4 + 256 *
          (b 3 + 256 * (b 2 + 256 * (b 1 + 256 * b 0))))))
    .ok (value, { r with offset := r.offset + 8 })

/-- `BinaryReader::skip`. -/
def skip (r : BinaryReader) (count : Nat) : Except ParseError BinaryReader :=
  if r.offset + count > r.data.length then .error (.truncatedData count r.remaining)
  else .ok { r with offset := r.offset + count }

/-- `BinaryReader::set_offset`. -/
def set_offset (r : BinaryReader) (offset : Nat) : BinaryReader :=
  { r with offset := offset }

end BinaryReader

/-- common.rs `SectionFlags` bit values. -/
def FLAG_READ : Nat := 0x0001

def FLAG_WRITE : Nat := 0x0002

def FLAG_EXECUTE : Nat := 0x0004

def FLAG_INITIALIZED : Nat := 0x0008

def FLAG_UNINITIALIZED : Nat := 0x0010

/-- `bitflags` `contains`: all bits of `f` present in `c`. -/
def flagsContains (c f : Nat) : Bool := c.land f == f

/-- common.rs `Section`. -/
structure Section where
  name : String
  virtual_address : Nat
  virtual_size : Nat
  raw_offset : Nat
  raw_size : Nat
  characteristics : Nat
deriving DecidableEq

/-- common.rs `SymbolType`. -/
inductive SymbolType where
  | function
  | object
  | section
  | file
  | unknown
deriving DecidableEq

/-- common.rs `Symbol`. -/
structure Symbol where
  name : String
  address : Nat
  size : Option Nat
  symbol_type : SymbolType
deriving DecidableEq

/-- core/types.rs `Architecture`. -/
inductive Architecture where
  | x86
  | x64
  | arm32
  | arm64
  | unknown
deriving DecidableEq

/-- core/types.rs `Architecture::pointer_size`. -/
def Architecture.pointer_size : Architecture → Nat
  | .x86 | .arm32 => 4
  | .x64 | .arm64 => 8
  | .unknown => 8

/-- core/types.rs `Platform`. -/
inductive Platform where
  | windows
  | linux
  | macOS
  | android
  | ios
  | unknown
deriving DecidableEq

/-- core/types.rs `BinaryFormat`. -/
inductive BinaryFormat where
  | pe
  | elf
  | machO
  | unknown
deriving DecidableEq

/-- A parsed binary file: the data every implementor of the common.rs
`BinaryFile` trait carries (PeFile, ElfFile, MachOFile all hold exactly these
fields and implement the trait methods over them). -/
structure BinFile where
  format : BinaryFormat
  architecture : Architecture
  platform : Platform
  image_base : Nat
  entry_point : Nat
  sections : List Section
  symbols : List Symbol
  data : List Nat
deriving DecidableEq

/-- common.rs `BinaryFile::executable_sections`. -/
def BinFile.executable_sections (f : BinFile) : List Section :=
  f.sections.filter fun s => flagsContains s.characteristics FLAG_EXECUTE

/-- common.rs `BinaryFile::data_sections`: readable, non-executable. -/
def BinFile.data_sections (f : BinFile) : List Section :=
  f.sections.filter fun s =>
    !flagsContains s.characteristics FLAG_EXECUTE &&
      flagsContains s.characteristics FLAG_READ

/-- common.rs `BinaryFile::section_data`: bounds-checked raw slice
`data[raw_offset .. raw_offset + raw_size]`. -/
def BinFile.section_data (f : BinFile) (s : Section) : Option (List Nat) :=
  let start := s.raw_offset
  let endPos := start + s.raw_size
  if endPos ≤ f.data.length then some ((f.data.drop start).take s.raw_size)
  else none

/-- `va_to_offset`: linear scan over sections, first containing section wins.
The three implementations (pe.rs, elf.rs, macho.rs) are textually identical
over their section lists, so the common body is embedded once. -/
def va_to_offset : List Section → Nat → Option Nat
  | [], _ => none
  | s :: rest, va =>
    if s.virtual_address ≤ va ∧ va < s.virtual_address + s.virtual_size then
      some (s.raw_offset + (va - s.virtual_address))
    else va_to_offset rest va

/-- `offset_to_va`: linear scan over sections, first containing section wins
(same body in all three format parsers). -/
def offset_to_va : List Section → Nat → Option Nat
  | [], _ => none
  | s :: rest, offset =>
    if s.raw_offset ≤ offset ∧ offset < s.raw_offset + s.raw_size then
      some (s.virtual_address + (offset - s.raw_offset))
    else offset_to_va rest offset

/-- common.rs `BinaryFile::va_to_offset` on a parsed file. -/
def BinFile.va_to_offset (f : BinFile) (va : Nat) : Option Nat :=
  Endfield.va_to_offset f.sections va

/-- common.rs `BinaryFile::offset_to_va` on a parsed file. -/
def BinFile.offset_to_va (f : BinFile) (offset : Nat) : Option Nat :=
  Endfield.offset_to_va f.sections offset

/-- Kinds of Rust panic reachable from the pattern-search code:
`assert_eq!` failure, and `slice::windows(0)` ("size is zero"). -/
inductive PanicKind where
  | assertFailed
  | emptyWindow
deriving DecidableEq

/-- One `window == pattern` comparison of common.rs `search_pattern`. -/
def windowMatches (w pattern : List Nat) : Bool := w == pattern

/-- The inner loop of common.rs `search_pattern_masked`: position `i` fails
only when `mask[i] != 0 && byte != pattern[i]`. -/
def windowMatchesMasked (w pattern mask : List Nat) : Bool :=
  (List.range pattern.length).all fun i =>
    mask.getD i 0 == 0 || w.getD i 0 == pattern.getD i 0

/-- Offsets of matching windows of `search_pattern` within one section's data
(`data.windows(pattern.len()).enumerate()` with equality test). -/
def matchedOffsets (d pattern : List Nat) : List Nat :=
  (List.range (d.length + 1 - pattern.length)).filter fun off =>
    windowMatches ((d.drop off).take pattern.length) pattern

/-- Offsets of matching windows of `search_pattern_masked` within one
section's data. -/
def matchedOffsetsMasked (d pattern mask : List Nat) : List Nat :=
  (List.range (d.length + 1 - pattern.length)).filter fun off =>
    windowMatchesMasked ((d.drop off).take pattern.length) pattern mask

/-- Section loop of common.rs `search_pattern`.  `data.windows(0)` panics in
Rust, hence the `emptyWindow` error when a section with readable data is
reached with an empty pattern. -/
def searchSections (f : BinFile) (pattern : List Nat) :
    List Section → Except PanicKind (List Nat)
  | [] => .ok []
  | s :: rest =>
    match f.section_data s with
    | none => searchSections f pattern rest
    | some d =>
      if pattern.length = 0 then .error .emptyWindow
      else do
        let tail ← searchSections f pattern rest
        .ok ((matchedOffsets d pattern).map
          (fun off => addrOffset s.virtual_address (Int.ofNat off)) ++ tail)

/-- Section loop of common.rs `search_pattern_masked`. -/
def searchSectionsMasked (f : BinFile) (pattern mask : List Nat) :
    List Section → Except PanicKind (List Nat)
  | [] => .ok []
  | s :: rest =>
    match f.section_data s with
    | none => searchSectionsMasked f pattern mask rest
    | some d =>
      if pattern.length = 0 then .error .emptyWindow
      else do
        let tail ← searchSectionsMasked f pattern mask rest
        .ok ((matchedOffsetsMasked d pattern mask).map
          (fun off => addrOffset s.virtual_address (Int.ofNat off)) ++ tail)

/-- common.rs `BinaryFile::search_pattern`. -/
def BinFile.search_pattern (f : BinFile) (pattern : List Nat) :
    Except PanicKind (List Nat) :=
  searchSections f pattern f.executable_sections

/-- common.rs `BinaryFile::search_pattern_masked`.  The leading
`assert_eq!(pattern.len(), mask.len())` panics when the lengths differ. -/
def BinFile.search_pattern_masked (f : BinFile) (pattern mask : List Nat) :
    Except PanicKind (List Nat) :=
  if pattern.length ≠ mask.length then .error .assertFailed
  else searchSectionsMasked f pattern mask f.executable_sections

/-- il2cpp/src/search.rs `SearchResult`. -/
structure SearchResult where
  code_registration : Nat
  metadata_registration : Nat
deriving DecidableEq

/-- Prefix test on character lists (helper for the substring test). -/
def listStartsWith : List Char → List Char → Bool
  | _, [] => true
  | [], _ :: _ => false
  | a :: as, b :: bs => a == b && listStartsWith as bs

/-- Contiguous-substring test on character lists. -/
def listContainsSub : List Char → List Char → Bool
  | s, sub =>
    listStartsWith s sub ||
      match s with
      | [] => false
      | _ :: rest => listContainsSub rest sub

/-- Rust `str::contains` (substring test), used on symbol names. -/
def strContains (s sub : String) : Bool := listContainsSub s.toList sub.toList

/-- search.rs `symbol_search`: scan all symbols; the last symbol whose name
contains each registration identifier wins; succeed only if both are found. -/
def symbol_search (binary : BinFile) : Option SearchResult :=
  let folded := binary.symbols.foldl
    (fun (acc : Option Nat × Option Nat) symbol =>
      let code_reg :=
        if strContains symbol.name "g_CodeRegistration" then some symbol.address else acc.1
      let meta_reg :=
        if strContains symbol.name "g_MetadataRegistration" then some symbol.address else acc.2
      (code_reg, meta_reg))
    (none, none)
  match folded with
  | (some code, some meta) =>
    some { code_registration := code, metadata_registration := meta }
  | _ => none

/-- search.rs `validate_metadata_registration`: accepts every candidate
("for now, assume we found a valid count and return the candidate"). -/
def validate_metadata_registration (binary : BinFile) (candidate : Nat)
    (ptr_size : Nat) : Option Nat :=
  some candidate

/-- search.rs `find_code_registration`: a placeholder that always reports no
code-registration address. -/
def find_code_registration (binary : BinFile) (ptr_size : Nat) : Option Nat :=
  none

/-- search.rs `search_in_section`: slide a window over the section's data
looking for the little-endian encoding of the expected type count; on a
byte-exact match try to validate and pair it with a code registration. -/
def search_in_section (binary : BinFile) (s : Section) (expected_types : Nat)
    (ptr_size : Nat) : Option SearchResult :=
  match binary.section_data s with
  | none => none
  | some section_data =>
    let expected_bytes :=
      if ptr_size == 8 then leBytes 8 expected_types else leBytes 4 expected_types
    (List.range (section_data.length + 1 - expected_bytes.length)).findSome? fun off =>
      if (section_data.drop off).take expected_bytes.length = expected_bytes then
        match validate_metadata_registration binary
            (addrOffset s.virtual_address (Int.ofNat off)) ptr_size with
        | some meta_reg =>
          match find_code_registration binary ptr_size with
          | some code_reg =>
            some { code_registration := code_reg, metadata_registration := meta_reg }
          | none => none
        | none => none
      else none

/-- search.rs `plus_search`: try `search_in_section` over every readable,
non-executable section; first success wins. -/
def plus_search (binary : BinFile) (expected_types : Nat) : Option SearchResult :=
  let ptr_size := binary.architecture.pointer_size
  binary.data_sections.findSome? fun s =>
    search_in_section binary s expected_types ptr_size

/-- search.rs `x64_pattern_search`: `lea rcx, [rip+disp32]` opcode bytes. -/
def pattern_lea_rcx : List Nat := [0x48, 0x8D, 0x0D]

/-- search.rs `x64_pattern_search`: `lea rdx, [rip+disp32]` opcode bytes. -/
def pattern_lea_rdx : List Nat := [0x48, 0x8D, 0x15]

/-- Inner loop of `x64_pattern_search`: after a `lea rcx` at `i`, look for a
`lea rdx` at `j ∈ [i+7, min(i+50, len-7))` and turn both displacement fields
into addresses. -/
def x64ScanInner (d : List Nat) (s : Section) (i : Nat) : Option SearchResult :=
  (List.range' (i + 7) ((i + 50).min (d.length - 7) - (i + 7))).findSome? fun j =>
    if (d.drop j).take 3 = pattern_lea_rdx then
      let code_offset := i32At d (i + 3)
      let meta_offset := i32At d (j + 3)
      some { code_registration :=
               addrOffset s.virtual_address (Int.ofNat i + 7 + code_offset),
             metadata_registration :=
               addrOffset s.virtual_address (Int.ofNat j + 7 + meta_offset) }
    else none

/-- search.rs `x64_pattern_search`: scan executable sections for a
`lea rcx` / `lea rdx` RIP-relative pair; first hit wins. -/
def x64_pattern_search (binary : BinFile) : Option SearchResult :=
  binary.executable_sections.findSome? fun s =>
    match binary.section_data s with
    | none => none
    | some d =>
      (List.range (d.length - 20)).findSome? fun i =>
        if (d.drop i).take 3 = pattern_lea_rcx then x64ScanInner d s i
        else none

/-- search.rs `x86_pattern_search`: placeholder, always fails. -/
def x86_pattern_search (binary : BinFile) : Option SearchResult := none

/-- search.rs `arm64_pattern_search`: placeholder, always fails. -/
def arm64_pattern_search (binary : BinFile) : Option SearchResult := none

/-- search.rs `arm32_pattern_search`: placeholder, always fails. -/
def arm32_pattern_search (binary : BinFile) : Option SearchResult := none

/-- search.rs `pattern_search`: dispatch on architecture. -/
def pattern_search (binary : BinFile) : Option SearchResult :=
  match binary.architecture with
  | .x64 => x64_pattern_search binary
  | .x86 => x86_pattern_search binary
  | .arm64 => arm64_pattern_search binary
  | .arm32 => arm32_pattern_search binary
  | _ => none

/-- search.rs `search_registrations`: symbol search, then plus search, then
pattern search; first success wins.  (`expected_methods` is accepted and
unused, as in the source.) -/
def search_registrations (binary : BinFile) (expected_types expected_methods : Nat) :
    Option SearchResult :=
  match symbol_search binary with
  | some result => some result
  | none =>
    match plus_search binary expected_types with
    | some result => some result
    | none => pattern_search binary

/-- core/error.rs `Error` (variants reachable from metadata parsing; `io`
stands for `Error::Io` produced by a failed `byteorder` cursor read). -/
inductive MError where
  | io
  | parseMsg (msg : String)
  | invalidFormat (msg : String)
  | unsupportedVersion (v : Nat)
  | invalidMagic (expected actual : Nat)
deriving DecidableEq

/-- il2cpp/src/types.rs `METADATA_MAGIC`. -/
def METADATA_MAGIC : Nat := 0xFAB11BAF

/-- il2cpp/src/types.rs `MIN_METADATA_VERSION`. -/
def MIN_METADATA_VERSION : Nat := 16

/-- il2cpp/src/types.rs `MAX_METADATA_VERSION`. -/
def MAX_METADATA_VERSION : Nat := 31

/-- types.rs `Il2CppGlobalMetadataHeader`; all fields are u32, defaulting to 0
(`Default::default()`). -/
structure Il2CppGlobalMetadataHeader where
  sanity : Nat := 0
  version : Nat := 0
  string_literal_offset : Nat := 0
  string_literal_size : Nat := 0
  string_literal_data_offset : Nat := 0
  string_literal_data_size : Nat := 0
  string_offset : Nat := 0
  string_size : Nat := 0
  events_offset : Nat := 0
  events_size : Nat := 0
  properties_offset : Nat := 0
  properties_size : Nat := 0
  methods_offset : Nat := 0
  methods_size : Nat := 0
  parameter_default_values_offset : Nat := 0
  parameter_default_values_size : Nat := 0
  field_default_values_offset : Nat := 0
  field_default_values_size : Nat := 0
  field_and_parameter_default_value_data_offset : Nat := 0
  field_and_parameter_default_value_data_size : Nat := 0
  field_marshaled_sizes_offset : Nat := 0
  field_marshaled_sizes_size : Nat := 0
  parameters_offset : Nat := 0
  parameters_size : Nat := 0
  fields_offset : Nat := 0
  fields_size : Nat := 0
  generic_parameters_offset : Nat := 0
  generic_parameters_size : Nat := 0
  generic_parameter_constraints_offset : Nat := 0
  generic_parameter_constraints_size : Nat := 0
  generic_containers_offset : Nat := 0
  generic_containers_size : Nat := 0
  nested_types_offset : Nat := 0
  nested_types_size : Nat := 0
  interfaces_offset : Nat := 0
  interfaces_size : Nat := 0
  vtable_methods_offset : Nat := 0
  vtable_methods_size : Nat := 0
  interface_offsets_offset : Nat := 0
  interface_offsets_size : Nat := 0
  type_definitions_offset : Nat := 0
  type_definitions_size : Nat := 0
  images_offset : Nat := 0
  images_size : Nat := 0
  assemblies_offset : Nat := 0
  assemblies_size : Nat := 0
  field_refs_offset : Nat := 0
  field_refs_size : Nat := 0
  referenced_assemblies_offset : Nat := 0
  referenced_assemblies_size : Nat := 0
  attribute_data_offset : Nat := 0
  attribute_data_size : Nat := 0
  attribute_data_range_offset : Nat := 0
  attribute_data_range_size : Nat := 0
  unresolvedvirtual_call_parameter_types_offset : Nat := 0
  unresolvedvirtual_call_parameter_types_size : Nat := 0
  unresolvedvirtual_call_parameter_ranges_offset : Nat := 0
  unresolvedvirtual_call_parameter_ranges_size : Nat := 0
  windows_runtime_type_names_offset : Nat := 0
  windows_runtime_type_names_size : Nat := 0
  windows_runtime_strings_offset : Nat := 0
  windows_runtime_strings_size : Nat := 0
  exported_type_definitions_offset : Nat := 0
  exported_type_definitions_size : Nat := 0
deriving DecidableEq

/-- types.rs `Il2CppTypeDefinition` (u32/u16 as `Nat`, i32 as `Int`). -/
structure Il2CppTypeDefinition where
  name_index : Nat := 0
  namespace_index : Nat := 0
  byval_type_index : Int := 0
  byref_type_index : Int := 0
  declaring_type_index : Int := 0
  parent_index : Int := 0
  element_type_index : Int := 0
  generic_container_index : Int := 0
  flags : Nat := 0
  field_start : Int := 0
  method_start : Int := 0
  event_start : Int := 0
  property_start : Int := 0
  nested_types_start : Int := 0
  interfaces_start : Int := 0
  vtable_start : Int := 0
  interface_offsets_start : Int := 0
  method_count : Nat := 0
  property_count : Nat := 0
  field_count : Nat := 0
  event_count : Nat := 0
  nested_types_count : Nat := 0
  vtable_count : Nat := 0
  interfaces_count : Nat := 0
  interface_offsets_count : Nat := 0
  bitfield : Nat := 0
  token : Nat := 0
deriving DecidableEq

/-- types.rs `Il2CppMethodDefinition`. -/
structure Il2CppMethodDefinition where
  name_index : Nat := 0
  declaring_type : Int := 0
  return_type : Int := 0
  parameter_start : Int := 0
  generic_container_index : Int := 0
  token : Nat := 0
  flags : Nat := 0
  iflags : Nat := 0
  slot : Nat := 0
  parameter_count : Nat := 0
deriving DecidableEq

/-- types.rs `Il2CppFieldDefinition`. -/
structure Il2CppFieldDefinition where
  name_index : Nat := 0
  type_index : Int := 0
  token : Nat := 0
deriving DecidableEq

/-- types.rs `Il2CppParameterDefinition`. -/
structure Il2CppParameterDefinition where
  name_index : Nat := 0
  token : Nat := 0
  type_index : Int := 0
deriving DecidableEq

/-- types.rs `Il2CppPropertyDefinition`. -/
structure Il2CppPropertyDefinition where
  name_index : Nat := 0
  get : Int := 0
  set : Int := 0
  attrs : Nat := 0
  token : Nat := 0
deriving DecidableEq

/-- types.rs `Il2CppEventDefinition`. -/
structure Il2CppEventDefinition where
  name_index : Nat := 0
  type_index : Int := 0
  add : Int := 0
  remove : Int := 0
  raise : Int := 0
  token : Nat := 0
deriving DecidableEq

/-- types.rs `Il2CppImageDefinition`. -/
structure Il2CppImageDefinition where
  name_index : Nat := 0
  assembly_index : Int := 0
  type_start : Int := 0
  type_count : Nat := 0
  exported_type_start : Int := 0
  exported_type_count : Nat := 0
  entry_point_index : Int := 0
  token : Nat := 0
  custom_attribute_start : Int := 0
  custom_attribute_count : Nat := 0
deriving DecidableEq

/-- types.rs `Il2CppAssemblyName` (`public_key_token: [u8; 8]`). -/
structure Il2CppAssemblyName where
  name_index : Nat := 0
  culture_index : Nat := 0
  public_key_index : Nat := 0
  hash_value_index : Nat := 0
  public_key_token : List Nat := List.replicate 8 0
  hash_alg : Nat := 0
  hash_len : Int := 0
  flags : Nat := 0
  major : Int := 0
  minor : Int := 0
  build : Int := 0
  revision : Int := 0
deriving DecidableEq

/-- types.rs `Il2CppAssemblyDefinition`. -/
structure Il2CppAssemblyDefinition where
  image_index : Int := 0
  token : Nat := 0
  referenced_assembly_start : Int := 0
  referenced_assembly_count : Int := 0
  aname : Il2CppAssemblyName := {}
deriving DecidableEq

/-- types.rs `Il2CppGenericContainer`. -/
structure Il2CppGenericContainer where
  owner_index : Int := 0
  type_argc : Int := 0
  is_method : Int := 0
  generic_parameter_start : Int := 0
deriving DecidableEq

/-- types.rs `Il2CppGenericParameter`. -/
structure Il2CppGenericParameter where
  owner_index : Int := 0
  name_index : Nat := 0
  constraints_start : Int := 0
  constraints_count : Int := 0
  num : Nat := 0
  flags : Nat := 0
deriving DecidableEq

/-- types.rs `Il2CppStringLiteral`. -/
structure Il2CppStringLiteral where
  length : Nat := 0
  data_index : Nat := 0
deriving DecidableEq

/-- A `byteorder` little-endian u32 read on `Cursor<&[u8]>` at position
`pos`: fails with an IO error when fewer than 4 bytes remain. -/
def cursorReadU32 (d : List Nat) (pos : Nat) : Except MError (Nat × Nat) :=
  if pos + 4 ≤ d.length then .ok (u32At d pos, pos + 4) else .error .io

/-- A `byteorder` little-endian u16 cursor read. -/
def cursorReadU16 (d : List Nat) (pos : Nat) : Except MError (Nat × Nat) :=
  if pos + 2 ≤ d.length then .ok (u16At d pos, pos + 2) else .error .io

/-- A `byteorder` little-endian i32 cursor read. -/
def cursorReadI32 (d : List Nat) (pos : Nat) : Except MError (Int × Nat) :=
  if pos + 4 ≤ d.length then .ok (asI32 (u32At d pos), pos + 4) else .error .io

/-- A `byteorder` little-endian i16 cursor read. -/
def cursorReadI16 (d : List Nat) (pos : Nat) : Except MError (Int × Nat) :=
  if pos + 2 ≤ d.length then .ok (asI16 (u16At d pos), pos + 2) else .error .io

/-- `Read::read_exact` into an 8-byte array. -/
def cursorReadExact8 (d : List Nat) (pos : Nat) : Except MError (List Nat × Nat) :=
  if pos + 8 ≤ d.length then .ok ((d.drop pos).take 8, pos + 8) else .error .io

/-- metadata.rs `Metadata::type_def_size`. -/
def type_def_size (version : Nat) : Nat :=
  if version ≥ 27 then 88 else if version ≥ 24 then 80 else 76

/-- The common loop shape of every `read_*` table reader in metadata.rs:
records are parsed at `offset + i * recSize` for `i < count`, each from a
fresh cursor over `&data[pos..]`; a record whose `recSize` bytes would extend
past the end of the blob stops the table early. -/
def readTableAux (data : List Nat) (offset recSize : Nat)
    (parseRec : List Nat → Except MError α) : Nat → Nat → Except MError (List α)
  | 0, _ => .ok []
  | count + 1, i =>
    let pos := offset + i * recSize
    if pos + recSize > data.length then .ok []
    else do
      let record ← parseRec (data.drop pos)
      let rest ← readTableAux data offset recSize parseRec count (i + 1)
      .ok (record :: rest)

/-- Entry point of the common table-reading loop: `count = size / recSize`. -/
def readTable (data : List Nat) (offset size recSize : Nat)
    (parseRec : List Nat → Except MError α) : Except MError (List α) :=
  readTableAux data offset recSize parseRec (size / recSize) 0

/-- Record body of metadata.rs `read_type_definitions` (the cursor reads over
`&data[pos..]`). -/
def readTypeDefRecord (d : List Nat) : Except MError Il2CppTypeDefinition := do
  let (name_index, p) ← cursorReadU32 d 0
  let (namespace_index, p) ← cursorReadU32 d p
  let (byval_type_index, p) ← cursorReadI32 d p
  let (byref_type_index, p) ← cursorReadI32 d p
  let (declaring_type_index, p) ← cursorReadI32 d p
  let (parent_index, p) ← cursorReadI32 d p
  let (element_type_index, p) ← cursorReadI32 d p
  let (generic_container_index, p) ← cursorReadI32 d p
  let (flags, p) ← cursorReadU32 d p
  let (field_start, p) ← cursorReadI32 d p
  let (method_start, p) ← cursorReadI32 d p
  let (event_start, p) ← cursorReadI32 d p
  let (property_start, p) ← cursorReadI32 d p
  let (nested_types_start, p) ← cursorReadI32 d p
  let (interfaces_start, p) ← cursorReadI32 d p
  let (vtable_start, p) ← cursorReadI32 d p
  let (interface_offsets_start, p) ← cursorReadI32 d p
  let (method_count, p) ← cursorReadU16 d p
  let (property_count, p) ← cursorReadU16 d p
  let (field_count, p) ← cursorReadU16 d p
  let (event_count, p) ← cursorReadU16 d p
  let (nested_types_count, p) ← cursorReadU16 d p
  let (vtable_count, p) ← cursorReadU16 d p
  let (interfaces_count, p) ← cursorReadU16 d p
  let (interface_offsets_count, p) ← cursorReadU16 d p
  let (bitfield, p) ← cursorReadU32 d p
  let (token, _) ← cursorReadU32 d p
  .ok { name_index, namespace_index, byval_type_index, byref_type_index,
        declaring_type_index, parent_index, element_type_index,
        generic_container_index, flags, field_start, method_start, event_start,
        property_start, nested_types_start, interfaces_start, vtable_start,
        interface_offsets_start, method_count, property_count, field_count,
        event_count, nested_types_count, vtable_count, interfaces_count,
        interface_offsets_count, bitfield, token }

/-- metadata.rs `read_type_definitions`. -/
def read_type_definitions (data : List Nat) (header : Il2CppGlobalMetadataHeader)
    (version : Nat) : Except MError (List Il2CppTypeDefinition) :=
  readTable data header.type_definitions_offset header.type_definitions_size
    (type_def_size version) readTypeDefRecord

/-- Record body of metadata.rs `read_method_definitions`
(`generic_container_index` exists only for version ≥ 24). -/
def readMethodDefRecord (version : Nat) (d : List Nat) :
    Except MError Il2CppMethodDefinition := do
  let (name_index, p) ← cursorReadU32 d 0
  let (declaring_type, p) ← cursorReadI32 d p
  let (return_type, p) ← cursorReadI32 d p
  let (parameter_start, p) ← cursorReadI32 d p
  let (generic_container_index, p) ←
    if version ≥ 24 then cursorReadI32 d p else .ok ((0 : Int), p)
  let (token, p) ← cursorReadU32 d p
  let (flags, p) ← cursorReadU16 d p
  let (iflags, p) ← cursorReadU16 d p
  let (slot, p) ← cursorReadU16 d p
  let (parameter_count, _) ← cursorReadU16 d p
  .ok { name_index, declaring_type, return_type, parameter_start,
        generic_container_index, token, flags, iflags, slot, parameter_count }

/-- metadata.rs `read_method_definitions` (record stride 24 for version ≥ 24,
else 20). -/
def read_method_definitions (data : List Nat) (header : Il2CppGlobalMetadataHeader)
    (version : Nat) : Except MError (List Il2CppMethodDefinition) :=
  readTable data header.methods_offset header.methods_size
    (if version ≥ 24 then 24 else 20) (readMethodDefRecord version)

/-- Record body of metadata.rs `read_field_definitions`. -/
def readFieldDefRecord (d : List Nat) : Except MError Il2CppFieldDefinition := do
  let (name_index, p) ← cursorReadU32 d 0
  let (type_index, p) ← cursorReadI32 d p
  let (token, _) ← cursorReadU32 d p
  .ok { name_index, type_index, token }

/-- metadata.rs `read_field_definitions` (record stride 12). -/
def read_field_definitions (data : List Nat) (header : Il2CppGlobalMetadataHeader) :
    Except MError (List Il2CppFieldDefinition) :=
  readTable data header.fields_offset header.fields_size 12 readFieldDefRecord

/-- Record body of metadata.rs `read_parameter_definitions`. -/
def readParameterDefRecord (d : List Nat) : Except MError Il2CppParameterDefinition := do
  let (name_index, p) ← cursorReadU32 d 0
  let (token, p) ← cursorReadU32 d p
  let (type_index, _) ← cursorReadI32 d p
  .ok { name_index, token, type_index }

/-- metadata.rs `read_parameter_definitions` (record stride 12). -/
def read_parameter_definitions (data : List Nat) (header : Il2CppGlobalMetadataHeader) :
    Except MError (List Il2CppParameterDefinition) :=
  readTable data header.parameters_offset header.parameters_size 12 readParameterDefRecord

/-- Record body of metadata.rs `read_property_definitions`. -/
def readPropertyDefRecord (d : List Nat) : Except MError Il2CppPropertyDefinition := do
  let (name_index, p) ← cursorReadU32 d 0
  let (g, p) ← cursorReadI32 d p
  let (s, p) ← cursorReadI32 d p
  let (attrs, p) ← cursorReadU32 d p
  let (token, _) ← cursorReadU32 d p
  .ok { name_index, get := g, set := s, attrs, token }

/-- metadata.rs `read_property_definitions` (record stride 20). -/
def read_property_definitions (data : List Nat) (header : Il2CppGlobalMetadataHeader) :
    Except MError (List Il2CppPropertyDefinition) :=
  readTable data header.properties_offset header.properties_size 20 readPropertyDefRecord

/-- Record body of metadata.rs `read_event_definitions`. -/
def readEventDefRecord (d : List Nat) : Except MError Il2CppEventDefinition := do
  let (name_index, p) ← cursorReadU32 d 0
  let (type_index, p) ← cursorReadI32 d p
  let (add, p) ← cursorReadI32 d p
  let (remove, p) ← cursorReadI32 d p
  let (raise, p) ← cursorReadI32 d p
  let (token, _) ← cursorReadU32 d p
  .ok { name_index, type_index, add, remove, raise, token }

/-- metadata.rs `read_event_definitions` (record stride 24). -/
def read_event_definitions (data : List Nat) (header : Il2CppGlobalMetadataHeader) :
    Except MError (List Il2CppEventDefinition) :=
  readTable data header.events_offset header.events_size 24 readEventDefRecord

/-- Record body of metadata.rs `read_image_definitions` (the second block of
fields exists only for version ≥ 24). -/
def readImageDefRecord (version : Nat) (d : List Nat) :
    Except MError Il2CppImageDefinition := do
  let (name_index, p) ← cursorReadU32 d 0
  let (assembly_index, p) ← cursorReadI32 d p
  let (type_start, p) ← cursorReadI32 d p
  let (type_count, p) ← cursorReadU32 d p
  if version ≥ 24 then
    let (exported_type_start, p) ← cursorReadI32 d p
    let (exported_type_count, p) ← cursorReadU32 d p
    let (entry_point_index, p) ← cursorReadI32 d p
    let (token, p) ← cursorReadU32 d p
    let (custom_attribute_start, p) ← cursorReadI32 d p
    let (custom_attribute_count, _) ← cursorReadU32 d p
    .ok { name_index, assembly_index, type_start, type_count,
          exported_type_start, exported_type_count, entry_point_index, token,
          custom_attribute_start, custom_attribute_count }
  else
    .ok { name_index, assembly_index, type_start, type_count }

/-- metadata.rs `read_image_definitions` (record stride 40 for version ≥ 24,
else 24). -/
def read_image_definitions (data : List Nat) (header : Il2CppGlobalMetadataHeader)
    (version : Nat) : Except MError (List Il2CppImageDefinition) :=
  readTable data header.images_offset header.images_size
    (if version ≥ 24 then 40 else 24) (readImageDefRecord version)

/-- Record body of metadata.rs `read_assembly_definitions` (`token` exists
only for version ≥ 24). -/
def readAssemblyDefRecord (version : Nat) (d : List Nat) :
    Except MError Il2CppAssemblyDefinition := do
  let (image_index, p) ← cursorReadI32 d 0
  let (token, p) ← if version ≥ 24 then cursorReadU32 d p else .ok (0, p)
  let (referenced_assembly_start, p) ← cursorReadI32 d p
  let (referenced_assembly_count, p) ← cursorReadI32 d p
  let (aname_name_index, p) ← cursorReadU32 d p
  let (culture_index, p) ← cursorReadU32 d p
  let (public_key_index, p) ← cursorReadU32 d p
  let (hash_value_index, p) ← cursorReadU32 d p
  let (public_key_token, p) ← cursorReadExact8 d p
  let (hash_alg, p) ← cursorReadU32 d p
  let (hash_len, p) ← cursorReadI32 d p
  let (aname_flags, p) ← cursorReadU32 d p
  let (major, p) ← cursorReadI32 d p
  let (minor, p) ← cursorReadI32 d p
  let (build, p) ← cursorReadI32 d p
  let (revision, _) ← cursorReadI32 d p
  .ok { image_index, token, referenced_assembly_start, referenced_assembly_count,
        aname := { name_index := aname_name_index, culture_index,
                   public_key_index, hash_value_index, public_key_token,
                   hash_alg, hash_len, flags := aname_flags, major, minor,
                   build, revision } }

/-- metadata.rs `read_assembly_definitions` (record stride 68 for
version ≥ 24, else 64). -/
def read_assembly_definitions (data : List Nat) (header : Il2CppGlobalMetadataHeader)
    (version : Nat) : Except MError (List Il2CppAssemblyDefinition) :=
  readTable data header.assemblies_offset header.assemblies_size
    (if version ≥ 24 then 68 else 64) (readAssemblyDefRecord version)

/-- Record body of metadata.rs `read_generic_containers`. -/
def readGenericContainerRecord (d : List Nat) : Except MError Il2CppGenericContainer := do
  let (owner_index, p) ← cursorReadI32 d 0
  let (type_argc, p) ← cursorReadI32 d p
  let (is_method, p) ← cursorReadI32 d p
  let (generic_parameter_start, _) ← cursorReadI32 d p
  .ok { owner_index, type_argc, is_method, generic_parameter_start }

/-- metadata.rs `read_generic_containers` (record stride 16). -/
def read_generic_containers (data : List Nat) (header : Il2CppGlobalMetadataHeader) :
    Except MError (List Il2CppGenericContainer) :=
  readTable data header.generic_containers_offset header.generic_containers_size 16
    readGenericContainerRecord

/-- Record body of metadata.rs `read_generic_parameters`. -/
def readGenericParameterRecord (d : List Nat) : Except MError Il2CppGenericParameter := do
  let (owner_index, p) ← cursorReadI32 d 0
  let (name_index, p) ← cursorReadU32 d p
  let (constraints_start, p) ← cursorReadI16 d p
  let (constraints_count, p) ← cursorReadI16 d p
  let (num, p) ← cursorReadU16 d p
  let (flags, _) ← cursorReadU16 d p
  .ok { owner_index, name_index, constraints_start, constraints_count, num, flags }

/-- metadata.rs `read_generic_parameters` (record stride 16). -/
def read_generic_parameters (data : List Nat) (header : Il2CppGlobalMetadataHeader) :
    Except MError (List Il2CppGenericParameter) :=
  readTable data header.generic_parameters_offset header.generic_parameters_size 16
    readGenericParameterRecord

/-- Record body of metadata.rs `read_string_literals`. -/
def readStringLiteralRecord (d : List Nat) : Except MError Il2CppStringLiteral := do
  let (length, p) ← cursorReadU32 d 0
  let (data_index, _) ← cursorReadU32 d p
  .ok { length, data_index }

/-- metadata.rs `read_string_literals` (record stride 8). -/
def read_string_literals (data : List Nat) (header : Il2CppGlobalMetadataHeader) :
    Except MError (List Il2CppStringLiteral) :=
  readTable data header.string_literal_offset header.string_literal_size 8
    readStringLiteralRecord

/-- Record body of metadata.rs `read_interfaces` / `read_nested_types`
(one i32 per record). -/
def readI32Record (d : List Nat) : Except MError Int := do
  let (v, _) ← cursorReadI32 d 0
  .ok v

/-- metadata.rs `read_interfaces` (record stride 4). -/
def read_interfaces (data : List Nat) (header : Il2CppGlobalMetadataHeader) :
    Except MError (List Int) :=
  readTable data header.interfaces_offset header.interfaces_size 4 readI32Record

/-- metadata.rs `read_nested_types` (record stride 4). -/
def read_nested_types (data : List Nat) (header : Il2CppGlobalMetadataHeader) :
    Except MError (List Int) :=
  readTable data header.nested_types_offset header.nested_types_size 4 readI32Record

/-- metadata.rs `Metadata::read_header`: the cursor sits at offset 8 (after
magic and version); 44 base u32 fields are read, then version-gated groups.
`sanity` and `version` are set from the already-read values. -/
def read_header (data : List Nat) (version : Nat) :
    Except MError Il2CppGlobalMetadataHeader := do
  let (string_literal_offset, p) ← cursorReadU32 data 8
  let (string_literal_size, p) ← cursorReadU32 data p
  let (string_literal_data_offset, p) ← cursorReadU32 data p
  let (string_literal_data_size, p) ← cursorReadU32 data p
  let (string_offset, p) ← cursorReadU32 data p
  let (string_size, p) ← cursorReadU32 data p
  let (events_offset, p) ← cursorReadU32 data p
  let (events_size, p) ← cursorReadU32 data p
  let (properties_offset, p) ← cursorReadU32 data p
  let (properties_size, p) ← cursorReadU32 data p
  let (methods_offset, p) ← cursorReadU32 data p
  let (methods_size, p) ← cursorReadU32 data p
  let (parameter_default_values_offset, p) ← cursorReadU32 data p
  let (parameter_default_values_size, p) ← cursorReadU32 data p
  let (field_default_values_offset, p) ← cursorReadU32 data p
  let (field_default_values_size, p) ← cursorReadU32 data p
  let (field_and_parameter_default_value_data_offset, p) ← cursorReadU32 data p
  let (field_and_parameter_default_value_data_size, p) ← cursorReadU32 data p
  let (field_marshaled_sizes_offset, p) ← cursorReadU32 data p
  let (field_marshaled_sizes_size, p) ← cursorReadU32 data p
  let (parameters_offset, p) ← cursorReadU32 data p
  let (parameters_size, p) ← cursorReadU32 data p
  let (fields_offset, p) ← cursorReadU32 data p
  let (fields_size, p) ← cursorReadU32 data p
  let (generic_parameters_offset, p) ← cursorReadU32 data p
  let (generic_parameters_size, p) ← cursorReadU32 data p
  let (generic_parameter_constraints_offset, p) ← cursorReadU32 data p
  let (generic_parameter_constraints_size, p) ← cursorReadU32 data p
  let (generic_containers_offset, p) ← cursorReadU32 data p
  let (generic_containers_size, p) ← cursorReadU32 data p
  let (nested_types_offset, p) ← cursorReadU32 data p
  let (nested_types_size, p) ← cursorReadU32 data p
  let (interfaces_offset, p) ← cursorReadU32 data p
  let (interfaces_size, p) ← cursorReadU32 data p
  let (vtable_methods_offset, p) ← cursorReadU32 data p
  let (vtable_methods_size, p) ← cursorReadU32 data p
  let (interface_offsets_offset, p) ← cursorReadU32 data p
  let (interface_offsets_size, p) ← cursorReadU32 data p
  let (type_definitions_offset, p) ← cursorReadU32 data p
  let (type_definitions_size, p) ← cursorReadU32 data p
  let (images_offset, p) ← cursorReadU32 data p
  let (images_size, p) ← cursorReadU32 data p
  let (assemblies_offset, p) ← cursorReadU32 data p
  let (assemblies_size, p) ← cursorReadU32 data p
  let header : Il2CppGlobalMetadataHeader :=
    { sanity := METADATA_MAGIC, version,
      string_literal_offset, string_literal_size, string_literal_data_offset,
      string_literal_data_size, string_offset, string_size, events_offset,
      events_size, properties_offset, properties_size, methods_offset,
      methods_size, parameter_default_values_offset,
      parameter_default_values_size, field_default_values_offset,
      field_default_values_size, field_and_parameter_default_value_data_offset,
      field_and_parameter_default_value_data_size, field_marshaled_sizes_offset,
      field_marshaled_sizes_size, parameters_offset, parameters_size,
      fields_offset, fields_size, generic_parameters_offset,
      generic_parameters_size, generic_parameter_constraints_offset,
      generic_parameter_constraints_size, generic_containers_offset,
      generic_containers_size, nested_types_offset, nested_types_size,
      interfaces_offset, interfaces_size, vtable_methods_offset,
      vtable_methods_size, interface_offsets_offset, interface_offsets_size,
      type_definitions_offset, type_definitions_size, images_offset,
      images_size, assemblies_offset, assemblies_size }
  let (header, p) ←
    if version ≥ 19 then do
      let (a, p) ← cursorReadU32 data p
      let (b, p) ← cursorReadU32 data p
      .ok ({ header with field_refs_offset := a, field_refs_size := b }, p)
    else .ok (header, p)
  let (header, p) ←
    if version ≥ 20 then do
      let (a, p) ← cursorReadU32 data p
      let (b, p) ← cursorReadU32 data p
      .ok ({ header with
              referenced_assemblies_offset := a,
              referenced_assemblies_size := b }, p)
    else .ok (header, p)
  let (header, p) ←
    if version ≥ 21 then do
      let (a, p) ← cursorReadU32 data p
      let (b, p) ← cursorReadU32 data p
      let (c, p) ← cursorReadU32 data p
      let (e, p) ← cursorReadU32 data p
      .ok ({ header with
              attribute_data_offset := a,
              attribute_data_size := b,
              attribute_data_range_offset := c,
              attribute_data_range_size := e }, p)
    else .ok (header, p)
  let (header, p) ←
    if version ≥ 24 then do
      let (a, p) ← cursorReadU32 data p
      let (b, p) ← cursorReadU32 data p
      let (c, p) ← cursorReadU32 data p
      let (e, p) ← cursorReadU32 data p
      .ok ({ header with
              unresolvedvirtual_call_parameter_types_offset := a,
              unresolvedvirtual_call_parameter_types_size := b,
              unresolvedvirtual_call_parameter_ranges_offset := c,
              unresolvedvirtual_call_parameter_ranges_size := e }, p)
    else .ok (header, p)
  let (header, p) ←
    if version ≥ 24 ∧ version ≤ 24 then do
      let (a, p) ← cursorReadU32 data p
      let (b, p) ← cursorReadU32 data p
      let (c, p) ← cursorReadU32 data p
      let (e, p) ← cursorReadU32 data p
      .ok ({ header with
              windows_runtime_type_names_offset := a,
              windows_runtime_type_names_size := b,
              windows_runtime_strings_offset := c,
              windows_runtime_strings_size := e }, p)
    else .ok (header, p)
  let (header, _) ←
    if version ≥ 24 then do
      let (a, p) ← cursorReadU32 data p
      let (b, p) ← cursorReadU32 data p
      .ok ({ header with
              exported_type_definitions_offset := a,
              exported_type_definitions_size := b }, p)
    else .ok (header, p)
  .ok header

/-- metadata.rs `Metadata`: the decoded blob. -/
structure Metadata where
  data : List Nat
  header : Il2CppGlobalMetadataHeader
  version : Nat
  type_definitions : List Il2CppTypeDefinition
  method_definitions : List Il2CppMethodDefinition
  field_definitions : List Il2CppFieldDefinition
  parameter_definitions : List Il2CppParameterDefinition
  property_definitions : List Il2CppPropertyDefinition
  event_definitions : List Il2CppEventDefinition
  image_definitions : List Il2CppImageDefinition
  assembly_definitions : List Il2CppAssemblyDefinition
  generic_containers : List Il2CppGenericContainer
  generic_parameters : List Il2CppGenericParameter
  string_literals : List Il2CppStringLiteral
  interfaces : List Int
  nested_types : List Int
deriving DecidableEq

/-- metadata.rs `Metadata::parse`. -/
def Metadata.parse (data : List Nat) : Except MError Metadata :=
  if data.length < 8 then .error (.parseMsg "Metadata too small")
  else
    match cursorReadU32 data 0 with
    | .error e => .error e
    | .ok (magic, pos) =>
      if magic ≠ METADATA_MAGIC then .error (.invalidMagic METADATA_MAGIC magic)
      else
        match cursorReadU32 data pos with
        | .error e => .error e
        | .ok (version, _) =>
          if version < MIN_METADATA_VERSION ∨ version > MAX_METADATA_VERSION then
            .error (.unsupportedVersion version)
          else do
            let header ← read_header data version
            let type_definitions ← read_type_definitions data header version
            let method_definitions ← read_method_definitions data header version
            let field_definitions ← read_field_definitions data header
            let parameter_definitions ← read_parameter_definitions data header
            let property_definitions ← read_property_definitions data header
            let event_definitions ← read_event_definitions data header
            let image_definitions ← read_image_definitions data header version
            let assembly_definitions ← read_assembly_definitions data header version
            let generic_containers ← read_generic_containers data header
            let generic_parameters ← read_generic_parameters data header
            let string_literals ← read_string_literals data header
            let interfaces ← read_interfaces data header
            let nested_types ← read_nested_types data header
            .ok { data, header, version, type_definitions, method_definitions,
                  field_definitions, parameter_definitions, property_definitions,
                  event_definitions, image_definitions, assembly_definitions,
                  generic_containers, generic_parameters, string_literals,
                  interfaces, nested_types }

/-- Whether a byte is a UTF-8 continuation byte (`0x80..=0xBF`). -/
def isUtf8Cont (b : Nat) : Bool := 0x80 ≤ b && b < 0xC0

/-- Strict UTF-8 decoding of a byte list into characters, with the validity
rules of Rust `std::str::from_utf8` (continuation ranges, no overlong forms,
no surrogates, max U+10FFFF).  `none` models `Err(Utf8Error)`. -/
def utf8Chars : List Nat → Option (List Char)
  | [] => some []
  | b :: bs =>
    if b < 0x80 then (utf8Chars bs).map fun cs => Char.ofNat b :: cs
    else if b < 0xC2 then none
    else if b < 0xE0 then
      match bs with
      | b1 :: bs1 =>
        if isUtf8Cont b1 then
          (utf8Chars bs1).map fun cs =>
            Char.ofNat ((b - 0xC0) * 0x40 + (b1 - 0x80)) :: cs
        else none
      | [] => none
    else if b < 0xF0 then
      match bs with
      | b1 :: b2 :: bs2 =>
        let firstOk :=
          if b == 0xE0 then 0xA0 ≤ b1 && b1 < 0xC0
          else if b == 0xED then 0x80 ≤ b1 && b1 < 0xA0
          else isUtf8Cont b1
        if firstOk && isUtf8Cont b2 then
          (utf8Chars bs2).map fun cs =>
            Char.ofNat ((b - 0xE0) * 0x1000 + (b1 - 0x80) * 0x40 + (b2 - 0x80)) :: cs
        else none
      | _ => none
    else if b < 0xF5 then
      match bs with
      | b1 :: b2 :: b3 :: bs3 =>
        let firstOk :=
          if b == 0xF0 then 0x90 ≤ b1 && b1 < 0xC0
          else if b == 0xF4 then 0x80 ≤ b1 && b1 < 0x90
          else isUtf8Cont b1
        if firstOk && isUtf8Cont b2 && isUtf8Cont b3 then
          (utf8Chars bs3).map fun cs =>
            Char.ofNat ((b - 0xF0) * 0x40000 + (b1 - 0x80) * 0x1000 +
              (b2 - 0x80) * 0x40 + (b3 - 0x80)) :: cs
        else none
      | _ => none
    else none

/-- `std::str::from_utf8(..).ok()` as a `String` producer. -/
def utf8Decode (bs : List Nat) : Option String :=
  (utf8Chars bs).map fun cs => { data := cs }

/-- UTF-16 decoding with surrogate-pair handling; `none` on a lone surrogate,
as in Rust `String::from_utf16`. -/
def utf16Chars : List Nat → Option (List Char)
  | [] => some []
  | u :: us =>
    if u < 0xD800 ∨ 0xE000 ≤ u then (utf16Chars us).map fun cs => Char.ofNat u :: cs
    else if u < 0xDC00 then
      match us with
      | u2 :: us2 =>
        if 0xDC00 ≤ u2 ∧ u2 < 0xE000 then
          (utf16Chars us2).map fun cs =>
            Char.ofNat (0x10000 + (u - 0xD800) * 0x400 + (u2 - 0xDC00)) :: cs
        else none
      | [] => none
    else none

/-- `chunks_exact(2)` combined with `u16::from_le_bytes`: pairs of bytes into
u16 code units, dropping a trailing odd byte. -/
def chunksU16Le : List Nat → List Nat
  | b0 :: b1 :: rest => (b0 + 256 * b1) :: chunksU16Le rest
  | _ => []

/-- metadata.rs `Metadata::get_string`: scan from `string_offset + index` to
the first null (or the end of the blob) and decode UTF-8. -/
def Metadata.get_string (m : Metadata) (index : Nat) : Option String :=
  let offset := m.header.string_offset + index
  if offset ≥ m.data.length then none
  else
    let endPos :=
      match (m.data.drop offset).findIdx? (fun b => b == 0) with
      | some p => offset + p
      | none => m.data.length
    utf8Decode ((m.data.drop offset).take (endPos - offset))

/-- metadata.rs `Metadata::get_string_literal`: length-prefixed UTF-16 data
at `string_literal_data_offset + data_index`; out-of-range or invalid UTF-16
yields `none`. -/
def Metadata.get_string_literal (m : Metadata) (index : Nat) : Option String :=
  match m.string_literals.get? index with
  | none => none
  | some literal =>
    let offset := m.header.string_literal_data_offset + literal.data_index
    let endPos := offset + literal.length * 2
    if endPos > m.data.length then none
    else
      let d := (m.data.drop offset).take (literal.length * 2)
      (utf16Chars (chunksU16Le d)).map fun cs => { data := cs }

/-- types.rs `type_attributes::INTERFACE`. -/
def TA_INTERFACE : Nat := 0x00000020

/-- types.rs `type_attributes::ABSTRACT`. -/
def TA_ABSTRACT : Nat := 0x00000080

/-- types.rs `type_attributes::SEALED`. -/
def TA_SEALED : Nat := 0x00000100

/-- types.rs `method_attributes::STATIC`. -/
def MA_STATIC : Nat := 0x0010

/-- types.rs `method_attributes::VIRTUAL`. -/
def MA_VIRTUAL : Nat := 0x0040

/-- types.rs `method_attributes::ABSTRACT`. -/
def MA_ABSTRACT : Nat := 0x0400

/-- core/types.rs `MethodParameter`. -/
structure MethodParameter where
  name : String
  type_name : String
  index : Nat
deriving DecidableEq

/-- core/types.rs `DumpedMethod`.  `Uuid::new_v4` identifiers are modelled by
the method's table index (one fresh identifier per processed method); the
`namespace` field is renamed `namespace_name` (Lean keyword). -/
structure DumpedMethod where
  id : Nat
  name : String
  full_name : String
  address : Nat
  return_type : String
  parameters : List MethodParameter
  class_name : String
  namespace_name : String
  is_static : Bool
  is_virtual : Bool
  is_abstract : Bool
  token : Nat
deriving DecidableEq

/-- core/types.rs `DumpedField`. -/
structure DumpedField where
  name : String
  type_name : String
  offset : Nat
  is_static : Bool
  is_const : Bool
  default_value : Option String
deriving DecidableEq

/-- core/types.rs `DumpedProperty` (getter/setter are method identifiers). -/
structure DumpedProperty where
  name : String
  type_name : String
  getter : Option Nat
  setter : Option Nat
deriving DecidableEq

/-- core/types.rs `DumpedType` (ids as in `DumpedMethod`). -/
structure DumpedType where
  id : Nat
  name : String
  namespace_name : String
  full_name : String
  parent_type : Option String
  interfaces : List String
  fields : List DumpedField
  methods : List Nat
  properties : List DumpedProperty
  is_enum : Bool
  is_interface : Bool
  is_abstract : Bool
  is_sealed : Bool
  token : Nat
deriving DecidableEq

/-- core/types.rs `StringLiteral` (the output record). -/
structure StringLiteral where
  address : Nat
  value : String
  index : Nat
deriving DecidableEq

/-- core/types.rs `DumpStatistics`. -/
structure DumpStatistics where
  total_types : Nat
  total_methods : Nat
  total_fields : Nat
  total_strings : Nat
  assemblies_count : Nat
deriving DecidableEq

/-- core/types.rs `DumpResults`; the wall-clock `timestamp` is outside the
model. -/
structure DumpResults where
  unity_version : Option String
  il2cpp_version : Nat
  types : List DumpedType
  methods : List DumpedMethod
  string_literals : List StringLiteral
  statistics : DumpStatistics
deriving DecidableEq

/-- dumper.rs `get_type_name`: full name of the type definition at `idx`,
`none` when the index is out of bounds or the name does not resolve. -/
def get_type_name (m : Metadata) (idx : Nat) : Option String := do
  let type_def ← m.type_definitions.get? idx
  let name ← m.get_string type_def.name_index
  let nspace := (m.get_string type_def.namespace_index).getD ""
  if nspace.isEmpty then pure name else pure (nspace ++ "." ++ name)

/-- dumper.rs `get_type_name_by_index`: negative index is `"void"`, anything
else the placeholder `Type_{index}` ("in a full implementation, this would
look up the Il2CppType and resolve it properly"). -/
def get_type_name_by_index (m : Metadata) (type_index : Int) : String :=
  if type_index < 0 then "void" else "Type_" ++ toString type_index

/-- dumper.rs `get_interfaces`. -/
def get_interfaces (m : Metadata) (type_def : Il2CppTypeDefinition) : List String :=
  if type_def.interfaces_start < 0 ∨ type_def.interfaces_count = 0 then []
  else
    let start := type_def.interfaces_start.toNat
    (List.range type_def.interfaces_count).filterMap fun i =>
      match m.interfaces.get? (start + i) with
      | none => none
      | some interface_idx =>
        if interface_idx ≥ 0 then get_type_name m interface_idx.toNat else none

/-- dumper.rs `get_fields`. -/
def get_fields (m : Metadata) (type_def : Il2CppTypeDefinition) : List DumpedField :=
  if type_def.field_start < 0 ∨ type_def.field_count = 0 then []
  else
    let start := type_def.field_start.toNat
    (List.range type_def.field_count).filterMap fun i =>
      match m.field_definitions.get? (start + i) with
      | none => none
      | some field_def =>
        let name := (m.get_string field_def.name_index).getD "<unknown>"
        let type_name := get_type_name_by_index m field_def.type_index
        some { name, type_name, offset := 0, is_static := false,
               is_const := false, default_value := none }

/-- dumper.rs `get_parameters`. -/
def get_parameters (m : Metadata) (method_def : Il2CppMethodDefinition) :
    List MethodParameter :=
  if method_def.parameter_start < 0 ∨ method_def.parameter_count = 0 then []
  else
    let start := method_def.parameter_start.toNat
    (List.range method_def.parameter_count).filterMap fun i =>
      match m.parameter_definitions.get? (start + i) with
      | none => none
      | some param_def =>
        let name := (m.get_string param_def.name_index).getD ("param" ++ toString i)
        let type_name := get_type_name_by_index m param_def.type_index
        some { name, type_name, index := i }

/-- dumper.rs `get_properties`. -/
def get_properties (m : Metadata) (type_def : Il2CppTypeDefinition) :
    List DumpedProperty :=
  if type_def.property_start < 0 ∨ type_def.property_count = 0 then []
  else
    let start := type_def.property_start.toNat
    (List.range type_def.property_count).filterMap fun i =>
      match m.property_definitions.get? (start + i) with
      | none => none
      | some prop_def =>
        let name := (m.get_string prop_def.name_index).getD "<unknown>"
        some { name, type_name := "", getter := none, setter := none }

/-- The first `if method_def.declaring_type >= 0` block of dumper.rs
`process_method` (lines 171-179): the declaring type's name.  The Rust code
indexes `type_definitions[declaring_type as usize]` directly; the `.error`
value models the index-out-of-bounds panic. -/
def method_class_name (m : Metadata) (method_def : Il2CppMethodDefinition) :
    Except String String :=
  if method_def.declaring_type ≥ 0 then
    match m.type_definitions.get? method_def.declaring_type.toNat with
    | some type_def => .ok ((m.get_string type_def.name_index).getD "<unknown>")
    | none => .error "index out of bounds"
  else .ok ""

/-- The second `if method_def.declaring_type >= 0` block of dumper.rs
`process_method` (lines 181-189): the declaring type's namespace, with the
same direct indexing. -/
def method_namespace (m : Metadata) (method_def : Il2CppMethodDefinition) :
    Except String String :=
  if method_def.declaring_type ≥ 0 then
    match m.type_definitions.get? method_def.declaring_type.toNat with
    | some type_def => .ok ((m.get_string type_def.namespace_index).getD "")
    | none => .error "index out of bounds"
  else .ok ""

/-- dumper.rs `process_method`; an `.error` result models a panic. -/
def process_method (m : Metadata) (idx : Nat)
    (method_def : Il2CppMethodDefinition) : Except String DumpedMethod := do
  let name := (m.get_string method_def.name_index).getD "<unknown>"
  let class_name ← method_class_name m method_def
  let namespace_name ← method_namespace m method_def
  let return_type := get_type_name_by_index m method_def.return_type
  let parameters := get_parameters m method_def
  let full_name :=
    (if namespace_name.isEmpty then class_name
     else namespace_name ++ "." ++ class_name) ++ "$$" ++ name
  .ok { id := idx, name, full_name, address := 0, return_type, parameters,
        class_name, namespace_name,
        is_static := method_def.flags.land MA_STATIC != 0,
        is_virtual := method_def.flags.land MA_VIRTUAL != 0,
        is_abstract := method_def.flags.land MA_ABSTRACT != 0,
        token := method_def.token }

/-- The `HashMap` from method index to its identifier built by
`process_types_and_methods`: every index below the number of processed
methods is mapped (to itself, since identifiers are modelled by indices). -/
def method_map_get (num_methods key : Nat) : Option Nat :=
  if key < num_methods then some key else none

/-- dumper.rs `process_type`. -/
def process_type (m : Metadata) (idx : Nat) (type_def : Il2CppTypeDefinition)
    (num_methods : Nat) : DumpedType :=
  let name := (m.get_string type_def.name_index).getD "<unknown>"
  let namespace_name := (m.get_string type_def.namespace_index).getD ""
  let full_name :=
    if namespace_name.isEmpty then name else namespace_name ++ "." ++ name
  let parent_type :=
    if type_def.parent_index ≥ 0 then get_type_name m type_def.parent_index.toNat
    else none
  let interfaces := get_interfaces m type_def
  let fields := get_fields m type_def
  let method_ids :=
    if type_def.method_start ≥ 0 then
      (List.range type_def.method_count).filterMap fun i =>
        method_map_get num_methods (type_def.method_start.toNat + i)
    else []
  let properties := get_properties m type_def
  let flags := type_def.flags
  { id := idx, name, namespace_name, full_name, parent_type, interfaces,
    fields, methods := method_ids, properties,
    is_enum := type_def.bitfield.land 0x1 != 0,
    is_interface := flags.land TA_INTERFACE != 0,
    is_abstract := flags.land TA_ABSTRACT != 0,
    is_sealed := flags.land TA_SEALED != 0,
    token := type_def.token }

/-- The method loop of dumper.rs `process_types_and_methods`
(`for (idx, method_def) in ... .enumerate()`); a panic aborts the dump. -/
def processMethodsLoop (m : Metadata) :
    Nat → List Il2CppMethodDefinition → Except String (List DumpedMethod)
  | _, [] => .ok []
  | idx, method_def :: rest => do
    let dm ← process_method m idx method_def
    let tail ← processMethodsLoop m (idx + 1) rest
    .ok (dm :: tail)

/-- dumper.rs `process_types_and_methods`. -/
def process_types_and_methods (m : Metadata) :
    Except String (List DumpedType × List DumpedMethod) := do
  let methods ← processMethodsLoop m 0 m.method_definitions
  let types := m.type_definitions.enum.map fun (idx, type_def) =>
    process_type m idx type_def methods.length
  .ok (types, methods)

/-- dumper.rs `process_string_literals`. -/
def process_string_literals (m : Metadata) : List StringLiteral :=
  m.string_literals.enum.filterMap fun (idx, _) =>
    (m.get_string_literal idx).map fun value =>
      { address := 0, value, index := idx }

/-- dumper.rs `Il2CppDumper::dump`: the registration search is performed and
its result bound to `_search_result`, which is never used; statistics are
derived counts; every address field stays at `Address::ZERO`. -/
def dump (binary : BinFile) (m : Metadata) : Except String DumpResults := do
  let _search_result :=
    search_registrations binary m.type_definitions.length m.method_definitions.length
  let (types, methods) ← process_types_and_methods m
  let string_literals := process_string_literals m
  let statistics : DumpStatistics :=
    { total_types := types.length
      total_methods := methods.length
      total_fields := (types.map fun t => t.fields.length).sum
      total_strings := string_literals.length
      assemblies_count := m.assembly_definitions.length }
  .ok { unity_version := none, il2cpp_version := m.version, types, methods,
        string_literals, statistics }

/-- pe.rs `DOS_MAGIC` ("MZ"). -/
def DOS_MAGIC : Nat := 0x5A4D

/-- pe.rs `PE_SIGNATURE` ("PE\0\0"). -/
def PE_SIGNATURE : Nat := 0x00004550

/-- pe.rs machine-type constants. -/
def IMAGE_FILE_MACHINE_I386 : Nat := 0x014C

def IMAGE_FILE_MACHINE_AMD64 : Nat := 0x8664

def IMAGE_FILE_MACHINE_ARM : Nat := 0x01C0

def IMAGE_FILE_MACHINE_ARM64 : Nat := 0xAA64

/-- pe.rs optional-header magics. -/
def PE32_MAGIC : Nat := 0x10B

def PE32PLUS_MAGIC : Nat := 0x20B

/-- pe.rs section-characteristics bits. -/
def IMAGE_SCN_MEM_EXECUTE : Nat := 0x20000000

def IMAGE_SCN_MEM_READ : Nat := 0x40000000

def IMAGE_SCN_MEM_WRITE : Nat := 0x80000000

def IMAGE_SCN_CNT_INITIALIZED_DATA : Nat := 0x00000040

def IMAGE_SCN_CNT_UNINITIALIZED_DATA : Nat := 0x00000080

/-- Drop trailing zero bytes, so that decoding agrees with
`String::from_utf8_lossy(..).trim_end_matches('\0')` on valid UTF-8 names
(section names; no claim depends on the lossy replacement of invalid bytes). -/
def dropTrailingZeros (bytes : List Nat) : List Nat :=
  (bytes.reverse.dropWhile fun b => b == 0).reverse

/-- The 8-byte PE section-name field as a string. -/
def sectionNameFromBytes (bytes : List Nat) : String :=
  (utf8Decode (dropTrailingZeros bytes)).getD ""

/-- The characteristics-to-`SectionFlags` mapping of pe.rs `parse`. -/
def peSectionFlags (characteristics : Nat) : Nat :=
  (if characteristics.land IMAGE_SCN_MEM_READ ≠ 0 then FLAG_READ else 0) +
  (if characteristics.land IMAGE_SCN_MEM_WRITE ≠ 0 then FLAG_WRITE else 0) +
  (if characteristics.land IMAGE_SCN_MEM_EXECUTE ≠ 0 then FLAG_EXECUTE else 0) +
  (if characteristics.land IMAGE_SCN_CNT_INITIALIZED_DATA ≠ 0 then FLAG_INITIALIZED else 0) +
  (if characteristics.land IMAGE_SCN_CNT_UNINITIALIZED_DATA ≠ 0 then FLAG_UNINITIALIZED else 0)

/-- The section-header loop of pe.rs `parse` (40-byte headers read through
the `BinaryReader`); each virtual address is eagerly rebased by `image_base`. -/
def readPeSections (image_base : Nat) :
    Nat → BinaryReader → Except ParseError (List Section × BinaryReader)
  | 0, r => .ok ([], r)
  | n + 1, r => do
    let (name_bytes, r) ← r.read_bytes 8
    let name := sectionNameFromBytes name_bytes
    let (virtual_size, r) ← r.read_u32
    let (virtual_address, r) ← r.read_u32
    let (size_of_raw_data, r) ← r.read_u32
    let (pointer_to_raw_data, r) ← r.read_u32
    let r ← r.skip 4
    let r ← r.skip 4
    let r ← r.skip 2
    let r ← r.skip 2
    let (characteristics, r) ← r.read_u32
    let s : Section :=
      { name, virtual_address := image_base + virtual_address,
        virtual_size, raw_offset := pointer_to_raw_data,
        raw_size := size_of_raw_data,
        characteristics := peSectionFlags characteristics }
    let (rest, r) ← readPeSections image_base n r
    .ok (s :: rest, r)

/-- pe.rs `PeFile` (the parsed file; `data` is the owned byte buffer). -/
structure PeFile where
  data : List Nat
  architecture : Architecture
  image_base : Nat
  entry_point : Nat
  sections : List Section
  symbols : List Symbol
  is_64bit : Bool
deriving DecidableEq

/-- pe.rs `PeFile::parse`: DOS header, PE signature, COFF header, optional
header (PE32 vs PE32+), then the section table; no symbols are produced. -/
def PeFile.parse (data : List Nat) : Except ParseError PeFile := do
  let r := BinaryReader.new data true
  let (dos_magic, r) ← r.read_u16
  if dos_magic ≠ DOS_MAGIC then
    throw (.invalidMagic DOS_MAGIC dos_magic)
  let r := r.set_offset 0x3C
  let (pe_offset, r) ← r.read_u32
  let r := r.set_offset pe_offset
  let (pe_sig, r) ← r.read_u32
  if pe_sig ≠ PE_SIGNATURE then
    throw (.invalidMagic PE_SIGNATURE pe_sig)
  let (machine, r) ← r.read_u16
  let (number_of_sections, r) ← r.read_u16
  let (_time_date_stamp, r) ← r.read_u32
  let (_pointer_to_symbol_table, r) ← r.read_u32
  let (_number_of_symbols, r) ← r.read_u32
  let (size_of_optional_header, r) ← r.read_u16
  let (_characteristics, r) ← r.read_u16
  let architecture : Architecture :=
    if machine = IMAGE_FILE_MACHINE_I386 then .x86
    else if machine = IMAGE_FILE_MACHINE_AMD64 then .x64
    else if machine = IMAGE_FILE_MACHINE_ARM then .arm32
    else if machine = IMAGE_FILE_MACHINE_ARM64 then .arm64
    else .unknown
  let optional_header_offset := r.offset
  let (optional_magic, r) ← r.read_u16
  let is_64bit := optional_magic == PE32PLUS_MAGIC
  if optional_magic ≠ PE32_MAGIC ∧ optional_magic ≠ PE32PLUS_MAGIC then
    throw (.invalidHeader ("Invalid optional header magic: " ++ toString optional_magic))
  let r ← r.skip 2
  let r ← r.skip 4
  let r ← r.skip 4
  let r ← r.skip 4
  let (address_of_entry_point, r) ← r.read_u32
  let r ← r.skip 4
  let r ← if !is_64bit then r.skip 4 else .ok r
  let (image_base, r) ←
    if is_64bit then r.read_u64
    else do
      let (v, r) ← r.read_u32
      .ok (v, r)
  let section_header_offset := optional_header_offset + size_of_optional_header
  let r := r.set_offset section_header_offset
  let (sections, _) ← readPeSections image_base number_of_sections r
  .ok { data, architecture, image_base,
        entry_point := image_base + address_of_entry_point, sections,
        symbols := [], is_64bit }

/-- Modelled from the spec: the masked-search semantics as the specification
words them (§4.3, "masked variant treats a non-zero mask byte as
\"don't care\"").  Used only to compare against the implementation's
`windowMatchesMasked`. -/
def windowMatchesMaskedClaim (w pattern mask : List Nat) : Bool :=
  (List.range pattern.length).all fun i =>
    mask.getD i 0 != 0 || w.getD i 0 == pattern.getD i 0

/-- Modelled from the spec: window offsets under the claimed mask semantics. -/
def matchedOffsetsMaskedClaim (d pattern mask : List Nat) : List Nat :=
  (List.range (d.length + 1 - pattern.length)).filter fun off =>
    windowMatchesMaskedClaim ((d.drop off).take pattern.length) pattern mask

/-- Modelled from the spec: the section loop under the claimed mask
semantics. -/
def searchSectionsMaskedClaim (f : BinFile) (pattern mask : List Nat) :
    List Section → Except PanicKind (List Nat)
  | [] => .ok []
  | s :: rest =>
    match f.section_data s with
    | none => searchSectionsMaskedClaim f pattern mask rest
    | some d =>
      if pattern.length = 0 then .error .emptyWindow
      else do
        let tail ← searchSectionsMaskedClaim f pattern mask rest
        .ok ((matchedOffsetsMaskedClaim d pattern mask).map
          (fun off => addrOffset s.virtual_address (Int.ofNat off)) ++ tail)

/-- Modelled from the spec: `search_pattern_masked` as claimed (non-zero mask
byte = wildcard). -/
def search_pattern_masked_claim (f : BinFile) (pattern mask : List Nat) :
    Except PanicKind (List Nat) :=
  if pattern.length ≠ mask.length then .error .assertFailed
  else searchSectionsMaskedClaim f pattern mask f.executable_sections

/-- A binary file with no sections and no symbols (e.g. a PE image whose COFF
header declares zero sections). -/
def emptyBinFile : BinFile :=
  { format := .unknown, architecture := .unknown, platform := .unknown,
    image_base := 0, entry_point := 0, sections := [], symbols := [], data := [] }

/-- A metadata blob (version 24) whose header declares one method record
(`methods_offset = 256`, `methods_size = 24`) and zero type definitions; the
record plus 8 bytes of slack (the version-24 record parse reads 32 bytes from
the cursor) are all zero, so the method's `declaring_type` is `0`: a
non-negative index into an empty type-definition table. -/
def c1Blob : List Nat :=
  leBytes 4 METADATA_MAGIC ++ leBytes 4 24 ++
    List.replicate 40 0 ++ leBytes 4 256 ++ leBytes 4 24 ++
    List.replicate 200 0 ++ List.replicate 32 0

/-- Decodes `c1Blob`, checks the decoded shape, and evaluates both
`process_method` on its only method and the whole `dump` at that metadata:
both end in the modelled index-out-of-bounds panic. -/
def c1Check : Bool :=
  match Metadata.parse c1Blob with
  | .ok m =>
    match m.method_definitions with
    | [method_def] =>
      decide (m.type_definitions = []) &&
      decide (method_def.declaring_type = 0) &&
      decide (process_method m 0 method_def = .error "index out of bounds") &&
      decide (dump emptyBinFile m = .error "index out of bounds")
    | _ => false
  | .error _ => false

/-- A binary file whose symbol table names both registration structures. -/
def binFileC2 : BinFile :=
  { format := .elf, architecture := .x64, platform := .linux, image_base := 0,
    entry_point := 0, sections := [],
    symbols :=
      [{ name := "g_CodeRegistration", address := 0x5000, size := none,
         symbol_type := .object },
       { name := "g_MetadataRegistration", address := 0x6000, size := none,
         symbol_type := .object }],
    data := [] }

/-- A decoded metadata instance with one method definition (declaring type
absent) and one empty string literal. -/
def metaC2 : Metadata :=
  { data := [], header := {}, version := 24, type_definitions := [],
    method_definitions :=
      [{ name_index := 0, declaring_type := -1, return_type := -1,
         parameter_start := -1, generic_container_index := 0, token := 1,
         flags := 0, iflags := 0, slot := 0, parameter_count := 0 }],
    field_definitions := [], parameter_definitions := [],
    property_definitions := [], event_definitions := [],
    image_definitions := [], assembly_definitions := [],
    generic_containers := [], generic_parameters := [],
    string_literals := [{ length := 0, data_index := 0 }],
    interfaces := [], nested_types := [] }

/-- The dump result produced from `binFileC2` and `metaC2`: note both address
fields are the zero sentinel although the Locator succeeded. -/
def dumpResultC2 : DumpResults :=
  { unity_version := none, il2cpp_version := 24, types := [],
    methods :=
      [{ id := 0, name := "<unknown>", full_name := "$$<unknown>", address := 0,
         return_type := "void", parameters := [], class_name := "",
         namespace_name := "", is_static := false, is_virtual := false,
         is_abstract := false, token := 1 }],
    string_literals := [{ address := 0, value := "", index := 0 }],
    statistics := { total_types := 0, total_methods := 1, total_fields := 0,
                    total_strings := 1, assemblies_count := 0 } }

/-- A readable, non-executable section whose raw bytes are exactly the
pointer-width little-endian encoding of the expected type count 5. -/
def c3Section : Section :=
  { name := ".data", virtual_address := 0x2000, virtual_size := 8,
    raw_offset := 0, raw_size := 8, characteristics := FLAG_READ }

/-- A 64-bit binary file containing the encoded count in `c3Section`. -/
def binFileC3 : BinFile :=
  { format := .elf, architecture := .x64, platform := .linux, image_base := 0,
    entry_point := 0, sections := [c3Section], symbols := [],
    data := leBytes 8 5 }

/-- An executable section holding the single byte `0x41`. -/
def c4Section : Section :=
  { name := ".text", virtual_address := 0x1000, virtual_size := 1,
    raw_offset := 0, raw_size := 1,
    characteristics := FLAG_READ + FLAG_EXECUTE }

/-- A binary file whose only executable byte is `0x41`. -/
def binFileC4 : BinFile :=
  { format := .pe, architecture := .x64, platform := .windows, image_base := 0,
    entry_point := 0, sections := [c4Section], symbols := [], data := [0x41] }

/-- A decoded metadata instance whose string table holds `"Foo\0"` and whose
type table has one definition named `Foo` with an empty namespace. -/
def metaC5 : Metadata :=
  { data := [0x46, 0x6F, 0x6F, 0], header := {}, version := 24,
    type_definitions := [{ name_index := 0, namespace_index := 3 }],
    method_definitions := [], field_definitions := [],
    parameter_definitions := [], property_definitions := [],
    event_definitions := [], image_definitions := [],
    assembly_definitions := [], generic_containers := [],
    generic_parameters := [], string_literals := [], interfaces := [],
    nested_types := [] }

/-- A PE32+ image with one section whose `virtual_size` (0x100) exceeds its
`raw_size` (0x10) — the usual `.bss` shape: DOS header, PE signature at 0x40,
COFF header (AMD64, one section, 0x20-byte optional header), optional header,
one section header. -/
def c6Blob : List Nat :=
  [0x4D, 0x5A] ++ List.replicate 0x3A 0 ++ leBytes 4 0x40 ++
  [0x50, 0x45, 0x00, 0x00] ++
  leBytes 2 IMAGE_FILE_MACHINE_AMD64 ++ leBytes 2 1 ++ leBytes 4 0 ++
  leBytes 4 0 ++ leBytes 4 0 ++ leBytes 2 0x20 ++ leBytes 2 0 ++
  leBytes 2 PE32PLUS_MAGIC ++ List.replicate 14 0 ++ leBytes 4 0 ++
  leBytes 4 0 ++ leBytes 8 0 ++
  [0x2E, 0x62, 0x73, 0x73, 0, 0, 0, 0] ++ leBytes 4 0x100 ++
  leBytes 4 0x1000 ++ leBytes 4 0x10 ++ leBytes 4 0x200 ++
  List.replicate 12 0 ++ leBytes 4 IMAGE_SCN_MEM_READ

/-- The section `PeFile::parse` rebuilds from `c6Blob`. -/
def c6Section : Section :=
  { name := ".bss", virtual_address := 0x1000, virtual_size := 0x100,
    raw_offset := 0x200, raw_size := 0x10, characteristics := FLAG_READ }

/-- Disjointness of the raw file regions of two sections. -/
def sectionRawDisjoint (s t : Section) : Prop :=
  s.raw_offset + s.raw_size ≤ t.raw_offset ∨
    t.raw_offset + t.raw_size ≤ s.raw_offset

instance (s t : Section) : Decidable (sectionRawDisjoint s t) := by
  unfold sectionRawDisjoint
  infer_instance

/-- A section whose virtual size does not exceed its raw size (witness data
for the amended round-trip property). -/
def c6GoodSection : Section :=
  { name := ".data", virtual_address := 0x1000, virtual_size := 0x10,
    raw_offset := 0x100, raw_size := 0x10, characteristics := FLAG_READ }

/-- Number of bytes of version-gated header fields read by `read_header`
after the 44 base fields. -/
def headerExtraBytes (version : Nat) : Nat :=
  (if version ≥ 19 then 8 else 0) + (if version ≥ 20 then 8 else 0) +
  (if version ≥ 21 then 16 else 0) + (if version ≥ 24 then 16 else 0) +
  (if version ≥ 24 ∧ version ≤ 24 then 16 else 0) +
  (if version ≥ 24 then 8 else 0)

/-- The minimally valid metadata fixture for a version: magic, version, and a
version-appropriate header of all-zero fields (every table size 0). -/
def minimalFixture (version : Nat) : List Nat :=
  leBytes 4 METADATA_MAGIC ++ leBytes 4 version ++
    List.replicate (176 + headerExtraBytes version) 0

/-- Whether a parse result succeeded with every decoded table empty. -/
def metadataTablesEmptyAfter : Except MError Metadata → Bool
  | .ok m =>
    m.type_definitions.isEmpty && m.method_definitions.isEmpty &&
    m.field_definitions.isEmpty && m.parameter_definitions.isEmpty &&
    m.property_definitions.isEmpty && m.event_definitions.isEmpty &&
    m.image_definitions.isEmpty && m.assembly_definitions.isEmpty &&
    m.generic_containers.isEmpty && m.generic_parameters.isEmpty &&
    m.string_literals.isEmpty && m.interfaces.isEmpty &&
    m.nested_types.isEmpty
  | .error _ => false

/-- Witness data for the field-table truncation property: 12 bytes. -/
def c9Data : List Nat := List.replicate 12 0

/-- Witness header claiming two field records (24 bytes) starting at 0. -/
def c9Header : Il2CppGlobalMetadataHeader :=
  { fields_offset := 0, fields_size := 24 }

/-- Inversion for a successful `Except` bind. -/
theorem except_bind_ok {ε α β : Type _} {x : Except ε α} {f : α → Except ε β}
    {b : β} (h : x >>= f = .ok b) : ∃ a, x = .ok a ∧ f a = .ok b := by
  cases x with
  | error e => simp [Bind.bind, Except.bind] at h
  | ok a => exact ⟨a, rfl, by simpa [Bind.bind, Except.bind] using h⟩

/-- `findSome?` over a function that never succeeds. -/
theorem findSome?_eq_none_of {α β : Type _} {l : List α} {f : α → Option β}
    (h : ∀ x ∈ l, f x = none) : l.findSome? f = none := by
  induction l with
  | nil => rfl
  | cons a t ih =>
    simp [List.findSome?_cons, h a (by simp),
      ih fun x hx => h x (by simp [hx])]

/-- Every method record built by `process_method` carries the zero address
sentinel (`address: Address::ZERO` in dumper.rs). -/
theorem process_method_addr {m : Metadata} {idx : Nat}
    {method_def : Il2CppMethodDefinition} {dm : DumpedMethod}
    (h : process_method m idx method_def = .ok dm) : dm.address = 0 := by
  unfold process_method at h
  obtain ⟨cn, -, h⟩ := except_bind_ok h
  obtain ⟨ns, -, h⟩ := except_bind_ok h
  cases h
  rfl

/-- Every method in a successful `processMethodsLoop` run has address 0. -/
theorem processMethodsLoop_addr {m : Metadata} :
    ∀ {idx : Nat} {defs : List Il2CppMethodDefinition} {l : List DumpedMethod},
      processMethodsLoop m idx defs = .ok l → ∀ dm ∈ l, dm.address = 0 := by
  intro idx defs
  induction defs generalizing idx with
  | nil =>
    intro l h dm hdm
    cases h
    simp at hdm
  | cons d rest ih =>
    intro l h dm hdm
    unfold processMethodsLoop at h
    obtain ⟨dm1, h1, h⟩ := except_bind_ok h
    obtain ⟨tail, h2, h⟩ := except_bind_ok h
    cases h
    rcases List.mem_cons.mp hdm with rfl | hmem
    · exact process_method_addr h1
    · exact ih h2 dm hmem

/-- Every string-literal record built by `process_string_literals` carries the
zero address sentinel. -/
theorem process_string_literals_addr (m : Metadata) :
    ∀ sl ∈ process_string_literals m, sl.address = 0 := by
  intro sl hsl
  unfold process_string_literals at hsl
  obtain ⟨⟨idx, lit⟩, -, hmap⟩ := List.mem_filterMap.mp hsl
  dsimp only at hmap
  cases hv : m.get_string_literal idx with
  | none => rw [hv] at hmap; simp at hmap
  | some v =>
    rw [hv] at hmap
    cases hmap
    rfl

/-- Reading entry `i` of a `pattern.length`-byte window at offset `off`. -/
theorem getD_window (d : List Nat) (off plen i : Nat) (hi : i < plen) :
    ((d.drop off).take plen).getD i 0 = d.getD (off + i) 0 := by
  rw [List.getD_eq_getElem?_getD, List.getD_eq_getElem?_getD,
    List.getElem?_take, if_pos hi, List.getElem?_drop]

/-- Membership in the per-section offset list of `search_pattern_masked`:
an offset matches iff the window fits and every non-zero mask position agrees
with the pattern. -/
theorem mem_matchedOffsetsMasked {d pattern mask : List Nat}
    (hne : pattern ≠ []) (off : Nat) :
    off ∈ matchedOffsetsMasked d pattern mask ↔
      off + pattern.length ≤ d.length ∧
        ∀ i < pattern.length, mask.getD i 0 ≠ 0 →
          d.getD (off + i) 0 = pattern.getD i 0 := by
  have hplen : 0 < pattern.length := List.length_pos.mpr hne
  unfold matchedOffsetsMasked windowMatchesMasked
  rw [List.mem_filter, List.mem_range, List.all_eq_true]
  constructor
  · rintro ⟨hlt, hall⟩
    have hbound : off + pattern.length ≤ d.length := by omega
    refine ⟨hbound, fun i hi hm => ?_⟩
    have := hall i (List.mem_range.mpr hi)
    rw [getD_window d off pattern.length i hi] at this
    simp only [Bool.or_eq_true, beq_iff_eq] at this
    exact (this.resolve_left hm).symm ▸ rfl
  · rintro ⟨hbound, hpt⟩
    refine ⟨by omega, fun i hir => ?_⟩
    have hi := List.mem_range.mp hir
    rw [getD_window d off pattern.length i hi]
    simp only [Bool.or_eq_true, beq_iff_eq]
    by_cases hm : mask.getD i 0 = 0
    · exact Or.inl hm
    · exact Or.inr (hpt i hi hm)

/-- Characterization of the section loop of `search_pattern_masked` for a
non-empty pattern: it always succeeds, and its result holds exactly the
rebased matching offsets of every executable section with readable data. -/
theorem searchSectionsMasked_char (f : BinFile) (pattern mask : List Nat)
    (hne : pattern ≠ []) :
    ∀ secs : List Section, ∃ res,
      searchSectionsMasked f pattern mask secs = .ok res ∧
      ∀ a, a ∈ res ↔ ∃ s ∈ secs, ∃ d, f.section_data s = some d ∧
        ∃ off, off ∈ matchedOffsetsMasked d pattern mask ∧
          a = addrOffset s.virtual_address (Int.ofNat off) := by
  intro secs
  induction secs with
  | nil => exact ⟨[], rfl, by simp⟩
  | cons s rest ih =>
    obtain ⟨res, hres, hmem⟩ := ih
    cases hsd : f.section_data s with
    | none =>
      refine ⟨res, by simp [searchSectionsMasked, hsd, hres], fun a => ?_⟩
      rw [hmem]
      constructor
      · rintro ⟨t, ht, hrest⟩
        exact ⟨t, List.mem_cons_of_mem _ ht, hrest⟩
      · rintro ⟨t, ht, d, hd, hrest⟩
        rcases List.mem_cons.mp ht with rfl | ht2
        · rw [hsd] at hd; cases hd
        · exact ⟨t, ht2, d, hd, hrest⟩
    | some d =>
      have hplen : ¬pattern.length = 0 := by
        simpa [List.length_eq_zero] using hne
      refine ⟨(matchedOffsetsMasked d pattern mask).map
          (fun off : Nat => addrOffset s.virtual_address (Int.ofNat off)) ++ res, ?_,
        fun a => ?_⟩
      · simp only [searchSectionsMasked, hsd, if_neg hplen, hres,
          Bind.bind, Except.bind]
      · rw [List.mem_append, List.mem_map, hmem]
        constructor
        · rintro (⟨off, hoff, heq⟩ | ⟨t, ht, hrest⟩)
          · exact ⟨s, List.mem_cons_self s rest, d, hsd, off, hoff, heq.symm⟩
          · exact ⟨t, List.mem_cons_of_mem _ ht, hrest⟩
        · rintro ⟨t, ht, d2, hd2, off, hoff, heq⟩
          rcases List.mem_cons.mp ht with rfl | ht2
          · rw [hsd] at hd2
            cases hd2
            exact Or.inl ⟨off, hoff, heq.symm⟩
          · exact Or.inr ⟨t, ht2, d2, hd2, off, hoff, heq⟩

/-- The section loop of `search_pattern` never panics for a non-empty
pattern. -/
theorem searchSections_ok (f : BinFile) (pattern : List Nat)
    (hne : pattern ≠ []) :
    ∀ secs : List Section, ∃ res, searchSections f pattern secs = .ok res := by
  intro secs
  induction secs with
  | nil => exact ⟨[], rfl⟩
  | cons s rest ih =>
    obtain ⟨res, hres⟩ := ih
    cases hsd : f.section_data s with
    | none => exact ⟨res, by simp [searchSections, hsd, hres]⟩
    | some d =>
      have hplen : ¬pattern.length = 0 := by
        simpa [List.length_eq_zero] using hne
      exact ⟨(matchedOffsets d pattern).map
          (fun off : Nat => addrOffset s.virtual_address (Int.ofNat off)) ++ res,
        by simp only [searchSections, hsd, if_neg hplen, hres,
          Bind.bind, Except.bind]⟩

/-- With an empty pattern, both section loops panic (`windows(0)`) at the
first executable section whose data is in bounds. -/
theorem searchSections_panic (f : BinFile) :
    ∀ secs : List Section,
      (∃ s ∈ secs, (f.section_data s).isSome = true) →
      searchSections f [] secs = .error .emptyWindow ∧
        searchSectionsMasked f [] [] secs = .error .emptyWindow := by
  intro secs
  induction secs with
  | nil => rintro ⟨s, hs, -⟩; simp at hs
  | cons s rest ih =>
    rintro ⟨t, ht, hsome⟩
    cases hsd : f.section_data s with
    | none =>
      have hrest : ∃ u ∈ rest, (f.section_data u).isSome = true := by
        rcases List.mem_cons.mp ht with rfl | ht2
        · rw [hsd] at hsome; simp at hsome
        · exact ⟨t, ht2, hsome⟩
      obtain ⟨h1, h2⟩ := ih hrest
      exact ⟨by simp [searchSections, hsd, h1],
        by simp [searchSectionsMasked, hsd, h2]⟩
    | some d =>
      exact ⟨by simp [searchSections, hsd],
        by simp [searchSectionsMasked, hsd]⟩

/-- Length and success of the common table-reading loop when the record
parser succeeds on every in-bounds position: the table is the prefix of fully
contained records. -/
theorem readTableAux_length {α : Type _} (data : List Nat) (offset recSize : Nat)
    (hrec : 0 < recSize) (parseRec : List Nat → Except MError α)
    (hp : ∀ pos, pos + recSize ≤ data.length →
      ∃ a, parseRec (data.drop pos) = .ok a) :
    ∀ count i, ∃ l, readTableAux data offset recSize parseRec count i = .ok l ∧
      l.length = min count ((data.length - offset) / recSize - i) := by
  intro count
  induction count with
  | zero => intro i; exact ⟨[], rfl, by simp⟩
  | succ n ih =>
    intro i
    have hmul : (i + 1) * recSize = i * recSize + recSize := by ring
    have hiff : offset + i * recSize + recSize ≤ data.length ↔
        i + 1 ≤ (data.length - offset) / recSize := by
      rw [Nat.le_div_iff_mul_le hrec]
      omega
    by_cases hguard : offset + i * recSize + recSize > data.length
    · have hN : (data.length - offset) / recSize ≤ i := by
        by_contra hc
        push_neg at hc
        exact absurd (hiff.mpr hc) (by omega)
      refine ⟨[], ?_, by simp only [List.length_nil]; omega⟩
      unfold readTableAux
      rw [if_pos hguard]
    · push_neg at hguard
      have hN : i + 1 ≤ (data.length - offset) / recSize := hiff.mp hguard
      obtain ⟨a, ha⟩ := hp (offset + i * recSize) hguard
      obtain ⟨l, hl, hlen⟩ := ih (i + 1)
      refine ⟨a :: l, ?_, ?_⟩
      · unfold readTableAux
        rw [if_neg (by omega)]
        simp only [ha, hl, Bind.bind, Except.bind]
      · simp only [List.length_cons, hlen]
        omega

/-- A field record parses whenever 12 bytes are available. -/
theorem readFieldDefRecord_ok (d : List Nat) (h : 12 ≤ d.length) :
    ∃ a, readFieldDefRecord d = .ok a := by
  refine ⟨{ name_index := u32At d 0, type_index := asI32 (u32At d 4),
            token := u32At d 8 }, ?_⟩
  unfold readFieldDefRecord cursorReadU32 cursorReadI32
  rw [if_pos (by omega : 0 + 4 ≤ d.length)]
  dsimp only [Bind.bind, Except.bind]
  rw [if_pos (by omega : 0 + 4 + 4 ≤ d.length)]
  dsimp only [Bind.bind, Except.bind]
  rw [if_pos (by omega : 0 + 4 + 4 + 4 ≤ d.length)]

/-- Claim C1 (code defect): a method definition whose `declaring_type` is
non-negative but out of bounds for the type-definition table makes
`process_method` (and hence the whole dump) fail with the modelled
index-out-of-bounds panic, instead of being skipped.  `c1Blob` is a decodable
version-24 blob with one such method and zero type definitions. -/
theorem C1_process_method_panics : c1Check = true := by decide

/-- Claim C2 (counterexample): on `binFileC2`/`metaC2` the Locator succeeds
with two non-zero registration addresses, yet the dumped method and
string-literal records still carry the zero address sentinel — the dump never
derives addresses from the Locator result. -/
theorem C2_counterexample :
    search_registrations binFileC2 metaC2.type_definitions.length
        metaC2.method_definitions.length =
      some { code_registration := 0x5000, metadata_registration := 0x6000 } ∧
    dump binFileC2 metaC2 = .ok dumpResultC2 ∧
    dumpResultC2.methods.map (fun dm => dm.address) = [0] ∧
    dumpResultC2.string_literals.map (fun sl => sl.address) = [0] := by
  decide

/-- Claim C2 (amended): whatever the Locator returns, every method record and
every string-literal record of a successful dump carries the zero address
sentinel; the search result is computed and discarded. -/
theorem C2_amended (binary : BinFile) (m : Metadata) (r : DumpResults)
    (h : dump binary m = .ok r) :
    (∀ dm ∈ r.methods, dm.address = 0) ∧
      ∀ sl ∈ r.string_literals, sl.address = 0 := by
  unfold dump at h
  obtain ⟨⟨types, methods⟩, h1, h2⟩ := except_bind_ok h
  dsimp only at h2
  cases h2
  unfold process_types_and_methods at h1
  obtain ⟨ms, hms, h3⟩ := except_bind_ok h1
  dsimp only at h3
  cases h3
  exact ⟨processMethodsLoop_addr hms, process_string_literals_addr m⟩

/-- Witness for the amended C2 at a concrete dump. -/
theorem C2_amended_witness :
    (∀ dm ∈ dumpResultC2.methods, dm.address = 0) ∧
      ∀ sl ∈ dumpResultC2.string_literals, sl.address = 0 :=
  C2_amended binFileC2 metaC2 dumpResultC2 (by decide)

/-- Claim C3 (counterexample): `binFileC3` holds the pointer-width
little-endian encoding of the expected count 5 at the start of a readable
non-executable section, yet the count-validated scan (strategy 2) fails:
`search_in_section` and `plus_search` return nothing. -/
theorem C3_counterexample :
    binFileC3.data_sections = [c3Section] ∧
    binFileC3.section_data c3Section = some (leBytes 8 5) ∧
    search_in_section binFileC3 c3Section 5 8 = none ∧
    plus_search binFileC3 5 = none := by decide

/-- Claim C3 (amended): a byte-exact match is accepted as a
metadata-registration candidate without structural verification, but the
strategy as a whole never succeeds because the code-registration lookup is an
unimplemented placeholder returning absent; hence `search_in_section` and
`plus_search` always return nothing. -/
theorem C3_amended (binary : BinFile) (s : Section)
    (expected_types ptr_size candidate : Nat) :
    validate_metadata_registration binary candidate ptr_size = some candidate ∧
    find_code_registration binary ptr_size = none ∧
    search_in_section binary s expected_types ptr_size = none ∧
    plus_search binary expected_types = none := by
  have key : ∀ (s2 : Section) (ps : Nat),
      search_in_section binary s2 expected_types ps = none := by
    intro s2 ps
    unfold search_in_section
    cases hsd : binary.section_data s2 with
    | none => rfl
    | some sd =>
      dsimp only
      apply findSome?_eq_none_of
      intro off _
      dsimp only
      split <;> split <;> rfl
  refine ⟨rfl, rfl, key s ptr_size, ?_⟩
  unfold plus_search
  exact findSome?_eq_none_of fun s2 _ => key s2 _

/-- Claim C4 (counterexample): on the single executable byte `0x41`, pattern
`[0x90]` with mask `[0x01]` matches under the claimed semantics (non-zero
mask byte = wildcard) but not under the implementation (non-zero mask byte
demands equality). -/
theorem C4_counterexample :
    BinFile.search_pattern_masked binFileC4 [0x90] [0x01] = .ok [] ∧
    search_pattern_masked_claim binFileC4 [0x90] [0x01] = .ok [0x1000] := by
  decide

/-- Claim C4 (amended): for equal-length inputs with a non-empty pattern,
`search_pattern_masked` succeeds and returns exactly the positions in
executable sections where every position with a ZERO mask byte is a wildcard
and every position with a non-zero mask byte equals the pattern byte. -/
theorem C4_amended (f : BinFile) (pattern mask : List Nat)
    (hlen : pattern.length = mask.length) (hne : pattern ≠ []) :
    ∃ res, f.search_pattern_masked pattern mask = .ok res ∧
      ∀ a, a ∈ res ↔ ∃ s ∈ f.executable_sections, ∃ d,
        f.section_data s = some d ∧ ∃ off, off + pattern.length ≤ d.length ∧
          (∀ i < pattern.length, mask.getD i 0 ≠ 0 →
            d.getD (off + i) 0 = pattern.getD i 0) ∧
          a = addrOffset s.virtual_address (Int.ofNat off) := by
  obtain ⟨res, hres, hmem⟩ :=
    searchSectionsMasked_char f pattern mask hne f.executable_sections
  refine ⟨res, ?_, fun a => ?_⟩
  · unfold BinFile.search_pattern_masked
    rw [if_neg (by simp [hlen])]
    exact hres
  · rw [hmem a]
    constructor
    · rintro ⟨s, hs, d, hd, off, hoff, rfl⟩
      obtain ⟨hb, hpt⟩ := (mem_matchedOffsetsMasked hne off).mp hoff
      exact ⟨s, hs, d, hd, off, hb, hpt, rfl⟩
    · rintro ⟨s, hs, d, hd, off, hb, hpt, rfl⟩
      exact ⟨s, hs, d, hd, off,
        (mem_matchedOffsetsMasked hne off).mpr ⟨hb, hpt⟩, rfl⟩

/-- Witness for the amended C4 on a concrete file, pattern and mask. -/
theorem C4_amended_witness :
    ∃ res, binFileC4.search_pattern_masked [0x90] [0x00] = .ok res ∧
      ∀ a, a ∈ res ↔ ∃ s ∈ binFileC4.executable_sections, ∃ d,
        binFileC4.section_data s = some d ∧
        ∃ off, off + List.length [0x90] ≤ d.length ∧
          (∀ i < List.length [0x90], List.getD [0x00] i 0 ≠ 0 →
            d.getD (off + i) 0 = List.getD [0x90] i 0) ∧
          a = addrOffset s.virtual_address (Int.ofNat off) :=
  C4_amended binFileC4 [0x90] [0x00] (by decide) (by decide)

/-- Claim C5 (counterexample): `metaC5` has type definition 0 with real full
name `Foo`, but `get_type_name_by_index` still yields the synthetic
placeholder `Type_0`. -/
theorem C5_counterexample :
    get_type_name metaC5 0 = some "Foo" ∧
    get_type_name_by_index metaC5 0 = "Type_0" ∧
    ("Type_0" : String) ≠ "Foo" := by decide

/-- Claim C5 (amended): type-index resolution never consults the decoded
type table: a negative index yields `void`, and any non-negative index yields
the synthetic placeholder `Type_{index}` even when it addresses a known type
definition. -/
theorem C5_amended (m : Metadata) (type_index : Int) :
    get_type_name_by_index m type_index =
      if type_index < 0 then "void" else "Type_" ++ toString type_index := rfl

/-- Claim C6 (counterexample): `c6Blob` parses as a PE file with one section
whose virtual size exceeds its raw size; the address `0x1050` resolves via
`va_to_offset` to offset `0x250`, but `offset_to_va` maps `0x250` to absent. -/
theorem C6_counterexample :
    (PeFile.parse c6Blob).map (fun f => f.sections) = .ok [c6Section] ∧
    va_to_offset [c6Section] 0x1050 = some 0x250 ∧
    offset_to_va [c6Section] 0x250 = none := by decide

/-- Claim C6 (amended): the round trip holds when every section stores its
whole virtual range (`virtual_size ≤ raw_size`) and the sections' raw file
ranges are pairwise disjoint; then `offset_to_va` maps the offset back to the
original address, inside the same section. -/
theorem C6_roundtrip (sections : List Section) (a o : Nat)
    (hvs : ∀ s ∈ sections, s.virtual_size ≤ s.raw_size)
    (hdisj : sections.Pairwise sectionRawDisjoint)
    (h : va_to_offset sections a = some o) :
    ∃ s ∈ sections,
      (s.virtual_address ≤ a ∧ a < s.virtual_address + s.virtual_size) ∧
      (s.raw_offset ≤ o ∧ o < s.raw_offset + s.raw_size) ∧
      offset_to_va sections o = some a := by
  induction sections with
  | nil => simp [va_to_offset] at h
  | cons s rest ih =>
    rw [va_to_offset] at h
    by_cases hc : s.virtual_address ≤ a ∧ a < s.virtual_address + s.virtual_size
    · rw [if_pos hc] at h
      cases h
      have hvs_s := hvs s (List.mem_cons_self s rest)
      have hin : s.raw_offset ≤ s.raw_offset + (a - s.virtual_address) ∧
          s.raw_offset + (a - s.virtual_address) < s.raw_offset + s.raw_size := by
        omega
      refine ⟨s, List.mem_cons_self s rest, hc, hin, ?_⟩
      rw [offset_to_va, if_pos hin]
      congr 1
      omega
    · rw [if_neg hc] at h
      obtain ⟨t, ht, hva, hraw, hoff⟩ :=
        ih (fun u hu => hvs u (List.mem_cons_of_mem _ hu)) hdisj.of_cons h
      have hd := (List.pairwise_cons.mp hdisj).1 t ht
      have hnot : ¬(s.raw_offset ≤ o ∧ o < s.raw_offset + s.raw_size) := by
        rcases hd with h1 | h2 <;> omega
      refine ⟨t, List.mem_cons_of_mem _ ht, hva, hraw, ?_⟩
      rw [offset_to_va, if_neg hnot]
      exact hoff

/-- Witness for the amended C6 on a well-formed single-section list. -/
theorem C6_roundtrip_witness :
    ∃ s ∈ [c6GoodSection],
      (s.virtual_address ≤ 0x1005 ∧
        0x1005 < s.virtual_address + s.virtual_size) ∧
      (s.raw_offset ≤ 0x105 ∧ 0x105 < s.raw_offset + s.raw_size) ∧
      offset_to_va [c6GoodSection] 0x105 = some 0x1005 :=
  C6_roundtrip [c6GoodSection] 0x1005 0x105 (by decide) (by decide) (by decide)

/-- Claim C7: reading `n` bytes from a buffer of length `n - 1` (cursor at
the start) fails with a truncation error carrying `expected = n` and
`actual = n - 1`; and a successful `read_bytes` always returns exactly `n`
bytes, never fewer. -/
theorem C7_read_bytes (data : List Nat) (le : Bool) (n : Nat)
    (h0 : 0 < n) (h1 : data.length = n - 1) :
    (BinaryReader.new data le).read_bytes n =
      .error (.truncatedData n (n - 1)) ∧
    ∀ (r : BinaryReader) (res : List Nat × BinaryReader),
      r.read_bytes n = .ok res → res.1.length = n := by
  constructor
  · unfold BinaryReader.read_bytes BinaryReader.new BinaryReader.remaining
    rw [if_pos (by simpa [h1] using by omega : (0 : Nat) + n > data.length)]
    simp [h1]
  · intro r res h
    unfold BinaryReader.read_bytes at h
    split at h
    · exact absurd h (by simp)
    · next hcond =>
      cases h
      simp only [List.length_take, List.length_drop]
      omega

/-- Witness for C7 at `n = 3` over a two-byte buffer. -/
theorem C7_read_bytes_witness :
    (BinaryReader.new [7, 7] true).read_bytes 3 =
      .error (.truncatedData 3 2) ∧
    ∀ (r : BinaryReader) (res : List Nat × BinaryReader),
      r.read_bytes 3 = .ok res → res.1.length = 3 :=
  C7_read_bytes [7, 7] true 3 (by decide) (by decide)

/-- Claim C8: with a correct magic and at least a magic-and-version prefix,
any version outside [16, 31] is rejected with an unsupported-version error;
and each version 16–31 decodes its minimally valid all-zero header fixture
into a metadata instance whose tables are all empty. -/
theorem C8_version_gate :
    (∀ data : List Nat, 8 ≤ data.length → u32At data 0 = METADATA_MAGIC →
      (u32At data 4 < MIN_METADATA_VERSION ∨
        MAX_METADATA_VERSION < u32At data 4) →
      Metadata.parse data = .error (.unsupportedVersion (u32At data 4))) ∧
    ∀ version, 16 ≤ version → version ≤ 31 →
      metadataTablesEmptyAfter (Metadata.parse (minimalFixture version)) = true := by
  constructor
  · intro data hlen hmagic hver
    unfold Metadata.parse cursorReadU32
    rw [if_neg (by omega)]
    rw [if_pos (by omega : 0 + 4 ≤ data.length)]
    dsimp only
    rw [if_neg (by simp [hmagic])]
    rw [if_pos (by omega : 0 + 4 + 4 ≤ data.length)]
    dsimp only
    rw [if_pos (by simpa using hver)]
  · intro version h1 h2
    interval_cases version <;> decide

/-- Witness for C8: version 15 is rejected, version 16 decodes to empty
tables. -/
theorem C8_version_gate_witness :
    Metadata.parse (minimalFixture 15) =
      .error (.unsupportedVersion (u32At (minimalFixture 15) 4)) ∧
    metadataTablesEmptyAfter (Metadata.parse (minimalFixture 16)) = true :=
  ⟨C8_version_gate.1 (minimalFixture 15) (by decide) (by decide) (by decide),
   C8_version_gate.2 16 (by decide) (by decide)⟩

/-- Claim C9: when the header claims more field records than the blob holds
(`fields_offset + count * 12` past the end, count positive), the fields table
decodes to the shorter prefix of fully contained records without an error,
and every other table reader is unaffected by the fields-table header
fields. -/
theorem C9_truncation (data : List Nat) (header : Il2CppGlobalMetadataHeader)
    (version : Nat) (hcount : 0 < header.fields_size / 12)
    (hover : data.length < header.fields_offset + header.fields_size / 12 * 12) :
    (∃ l, read_field_definitions data header = .ok l ∧
      l.length = min (header.fields_size / 12)
        ((data.length - header.fields_offset) / 12) ∧
      l.length < header.fields_size / 12) ∧
    ∀ fo fs : Nat,
      read_type_definitions data
          { header with fields_offset := fo, fields_size := fs } version =
        read_type_definitions data header version ∧
      read_method_definitions data
          { header with fields_offset := fo, fields_size := fs } version =
        read_method_definitions data header version ∧
      read_parameter_definitions data
          { header with fields_offset := fo, fields_size := fs } =
        read_parameter_definitions data header ∧
      read_property_definitions data
          { header with fields_offset := fo, fields_size := fs } =
        read_property_definitions data header ∧
      read_event_definitions data
          { header with fields_offset := fo, fields_size := fs } =
        read_event_definitions data header ∧
      read_image_definitions data
          { header with fields_offset := fo, fields_size := fs } version =
        read_image_definitions data header version ∧
      read_assembly_definitions data
          { header with fields_offset := fo, fields_size := fs } version =
        read_assembly_definitions data header version ∧
      read_generic_containers data
          { header with fields_offset := fo, fields_size := fs } =
        read_generic_containers data header ∧
      read_generic_parameters data
          { header with fields_offset := fo, fields_size := fs } =
        read_generic_parameters data header ∧
      read_string_literals data
          { header with fields_offset := fo, fields_size := fs } =
        read_string_literals data header ∧
      read_interfaces data
          { header with fields_offset := fo, fields_size := fs } =
        read_interfaces data header ∧
      read_nested_types data
          { header with fields_offset := fo, fields_size := fs } =
        read_nested_types data header := by
  constructor
  · obtain ⟨l, hl, hlen⟩ := readTableAux_length data header.fields_offset 12
      (by norm_num) readFieldDefRecord
      (fun pos hpos => readFieldDefRecord_ok _ (by
        simp only [List.length_drop]; omega))
      (header.fields_size / 12) 0
    have hN : (data.length - header.fields_offset) / 12 <
        header.fields_size / 12 := by
      rw [Nat.div_lt_iff_lt_mul (by norm_num)]
      omega
    exact ⟨l, hl, by simpa using hlen, by omega⟩
  · intro fo fs
    exact ⟨rfl, rfl, rfl, rfl, rfl, rfl, rfl, rfl, rfl, rfl, rfl, rfl⟩

/-- Witness for C9: a header claiming two field records over a 12-byte blob
yields exactly one record. -/
theorem C9_truncation_witness :
    (∃ l, read_field_definitions c9Data c9Header = .ok l ∧
      l.length = min (c9Header.fields_size / 12)
        ((c9Data.length - c9Header.fields_offset) / 12) ∧
      l.length < c9Header.fields_size / 12) ∧
    ∀ fo fs : Nat,
      read_type_definitions c9Data
          { c9Header with fields_offset := fo, fields_size := fs } 24 =
        read_type_definitions c9Data c9Header 24 ∧
      read_method_definitions c9Data
          { c9Header with fields_offset := fo, fields_size := fs } 24 =
        read_method_definitions c9Data c9Header 24 ∧
      read_parameter_definitions c9Data
          { c9Header with fields_offset := fo, fields_size := fs } =
        read_parameter_definitions c9Data c9Header ∧
      read_property_definitions c9Data
          { c9Header with fields_offset := fo, fields_size := fs } =
        read_property_definitions c9Data c9Header ∧
      read_event_definitions c9Data
          { c9Header with fields_offset := fo, fields_size := fs } =
        read_event_definitions c9Data c9Header ∧
      read_image_definitions c9Data
          { c9Header with fields_offset := fo, fields_size := fs } 24 =
        read_image_definitions c9Data c9Header 24 ∧
      read_assembly_definitions c9Data
          { c9Header with fields_offset := fo, fields_size := fs } 24 =
        read_assembly_definitions c9Data c9Header 24 ∧
      read_generic_containers c9Data
          { c9Header with fields_offset := fo, fields_size := fs } =
        read_generic_containers c9Data c9Header ∧
      read_generic_parameters c9Data
          { c9Header with fields_offset := fo, fields_size := fs } =
        read_generic_parameters c9Data c9Header ∧
      read_string_literals c9Data
          { c9Header with fields_offset := fo, fields_size := fs } =
        read_string_literals c9Data c9Header ∧
      read_interfaces c9Data
          { c9Header with fields_offset := fo, fields_size := fs } =
        read_interfaces c9Data c9Header ∧
      read_nested_types c9Data
          { c9Header with fields_offset := fo, fields_size := fs } =
        read_nested_types c9Data c9Header :=
  C9_truncation c9Data c9Header 24 (by decide) (by decide)

/-- Claim C10 (counterexample): on a binary with no sections, both searches
return an empty result for an empty pattern instead of panicking. -/
theorem C10_counterexample :
    emptyBinFile.search_pattern [] = .ok [] ∧
    emptyBinFile.search_pattern_masked [] [] = .ok [] := by decide

/-- Claim C10 (amended): the searches panic on an empty pattern exactly when
some executable section with in-bounds data is reached; the masked variant
panics unconditionally on a length mismatch; and for a non-empty pattern
with an equal-length mask both always return a (possibly empty) result. -/
theorem C10_amended :
    (∀ f : BinFile,
      (∃ s ∈ f.executable_sections, (f.section_data s).isSome = true) →
      f.search_pattern [] = .error .emptyWindow ∧
        f.search_pattern_masked [] [] = .error .emptyWindow) ∧
    (∀ (f : BinFile) (pattern mask : List Nat),
      pattern.length ≠ mask.length →
      f.search_pattern_masked pattern mask = .error .assertFailed) ∧
    (∀ (f : BinFile) (pattern : List Nat), pattern ≠ [] →
      ∃ res, f.search_pattern pattern = .ok res) ∧
    ∀ (f : BinFile) (pattern mask : List Nat), pattern ≠ [] →
      pattern.length = mask.length →
      ∃ res, f.search_pattern_masked pattern mask = .ok res := by
  refine ⟨?_, ?_, ?_, ?_⟩
  · intro f hex
    obtain ⟨h1, h2⟩ := searchSections_panic f f.executable_sections hex
    refine ⟨h1, ?_⟩
    unfold BinFile.search_pattern_masked
    rw [if_neg (by simp)]
    exact h2
  · intro f pattern mask hne
    unfold BinFile.search_pattern_masked
    rw [if_pos hne]
  · intro f pattern hne
    exact searchSections_ok f pattern hne f.executable_sections
  · intro f pattern mask hne hlen
    obtain ⟨res, hres, -⟩ :=
      searchSectionsMasked_char f pattern mask hne f.executable_sections
    refine ⟨res, ?_⟩
    unfold BinFile.search_pattern_masked
    rw [if_neg (by simp [hlen])]
    exact hres

/-- Witness for the amended C10 at concrete files, patterns and masks. -/
theorem C10_amended_witness :
    (binFileC4.search_pattern [] = .error .emptyWindow ∧
      binFileC4.search_pattern_masked [] [] = .error .emptyWindow) ∧
    binFileC4.search_pattern_masked [0x90] [0x01, 0x02] = .error .assertFailed ∧
    (∃ res, binFileC4.search_pattern [0xAA] = .ok res) ∧
    ∃ res, binFileC4.search_pattern_masked [0xAA] [0x00] = .ok res :=
  ⟨C10_amended.1 binFileC4 (by decide),
   C10_amended.2.1 binFileC4 [0x90] [0x01, 0x02] (by decide),
   C10_amended.2.2.1 binFileC4 [0xAA] (by decide),
   C10_amended.2.2.2 binFileC4 [0xAA] [0x00] (by decide) (by decide)⟩

end Endfield
